import Mathlib

/-!
Verification development for the `litecc` repository: a shallow embedding of
`src/Toycc.py` (lexer, recursive-descent parser, code generator) and
`src/mips_sim.py` (MIPS-subset instruction interpreter), together with
theorems settling the frozen claims about the system.

Python machine integers are embedded as `Nat`/`Int` with explicit masking
(`% 2^32`, matching Python's `& 0xFFFFFFFF` on possibly-negative values);
Python dictionaries become association lists (cons-front insert, first-match
lookup, which reproduces overwrite-on-reinsert); Python `raise` becomes
`Except.error`; loops whose counters the source drives by hand are embedded
with an explicit fuel parameter large enough that exhaustion is unreachable,
keeping every definition kernel-reducible.
-/

namespace Litecc

/-! ## Character-list utilities mirroring the Python string operations used -/

/-- Python `str.strip()` from the left: drop leading whitespace. -/
def dropWs (l : List Char) : List Char := l.dropWhile (fun c => c.isWhitespace)

/-- Python `str.strip()`: drop whitespace from both ends. -/
def pyStrip (l : List Char) : List Char :=
  ((dropWs l).reverse.dropWhile (fun c => c.isWhitespace)).reverse

/-- Python `str.split()` helper: accumulate the current word (reversed). -/
def splitWsAux : List Char → List Char → List (List Char)
  | [], acc => if acc.isEmpty then [] else [acc.reverse]
  | c :: rest, acc =>
    if c.isWhitespace then
      if acc.isEmpty then splitWsAux rest [] else acc.reverse :: splitWsAux rest []
    else splitWsAux rest (c :: acc)

/-- Python `str.split()` with no argument: split on whitespace runs, no empties. -/
def splitWs (l : List Char) : List (List Char) := splitWsAux l []

/-- Python `str.split(sep)` helper for a single-character separator. -/
def splitChAux (sep : Char) : List Char → List Char → List (List Char)
  | [], acc => [acc.reverse]
  | c :: rest, acc =>
    if c = sep then acc.reverse :: splitChAux sep rest []
    else splitChAux sep rest (c :: acc)

/-- Python `str.split(sep)`: split on every occurrence, keeping empties. -/
def splitCh (sep : Char) (l : List Char) : List (List Char) := splitChAux sep l []

/-- Whether `pre` is a prefix of `l` (Python `str.startswith`). -/
def listStarts : List Char → List Char → Bool
  | [], _ => true
  | _ :: _, [] => false
  | p :: ps, c :: cs => p = c && listStarts ps cs

/-- Python `str.endswith(suf)`. -/
def listEnds (suf l : List Char) : Bool := listStarts suf.reverse l.reverse

/-- Characters after the first occurrence of `sep` (Python `s[s.index(sep)+1:]`). -/
def afterCh (sep : Char) : List Char → List Char
  | [] => []
  | c :: rest => if c = sep then rest else afterCh sep rest

/-- Characters before the first occurrence of `sep` (Python `s[:s.index(sep)]`). -/
def beforeCh (sep : Char) : List Char → List Char
  | [] => []
  | c :: rest => if c = sep then [] else c :: beforeCh sep rest

/-- Decimal digit run to a natural number (Python `int` on a digit string). -/
def digitsToNat (l : List Char) : Nat :=
  l.foldl (fun a c => 10 * a + (c.toNat - 48)) 0

/-- Python `int(s)` on an already-stripped string: optional sign then one or
more decimal digits consuming the whole string; anything else raises. -/
def pyInt (s : String) : Except String Int :=
  let l := s.data
  let (neg, l') : Bool × List Char :=
    match l with
    | '-' :: rest => (true, rest)
    | '+' :: rest => (false, rest)
    | _ => (false, l)
  if l'.isEmpty || !(l'.all (fun c => c.isDigit)) then
    .error ("invalid literal for int: " ++ s)
  else
    .ok (if neg then -(digitsToNat l' : Int) else (digitsToNat l' : Int))

/-! ## Lexer (`Toycc.py`, class `Lexer`) -/

/-- Token value: Python stores the parsed `int` for NUMBER tokens and the
literal text for every other kind. -/
inductive TokValue where
  | num (n : Nat)
  | str (s : String)
deriving DecidableEq, Repr

/-- Token record `{type, value, line}` from `Toycc.py`. -/
structure Token where
  type : String
  value : TokValue
  line : Nat
deriving DecidableEq, Repr

/-- The fixed reserved-word set of the language. -/
def keywords : List String := ["int", "if", "else", "while", "for", "return", "void"]

/-- String-literal scan: the inner `while` of the string branch of
`Lexer.tokenize`. Consumes up to and including the closing quote, decoding
`\n` and the generic next-character-literally escape; an unterminated
string consumes everything that is left (every read is bounds-guarded). -/
def scanStr : List Char → (List Char × List Char)
  | [] => ([], [])
  | c :: rest =>
    if c = '"' then ([], rest)
    else if c = '\\' then
      match rest with
      | [] => (['\\'], [])
      | e :: rest2 =>
        let ch := if e = 'n' then '\n' else e
        let (s, rem) := scanStr rest2
        (ch :: s, rem)
    else
      let (s, rem) := scanStr rest
      (c :: s, rem)

/-- One outer-loop pass of `Lexer.tokenize`; `fuel` dominates the number of
loop iterations (each iteration consumes at least one character, so
`length + 1` fuel is never exhausted). -/
def lexGo : Nat → List Char → Nat → List Token
  | 0, _, _ => []
  | fuel + 1, cs, line =>
    match cs with
    | [] => []
    | c :: rest =>
      if c.isWhitespace then
        lexGo fuel rest (if c = '\n' then line + 1 else line)
      else if c == '/' && !rest.isEmpty && rest.headD ' ' == '/' then
        lexGo fuel ((c :: rest).dropWhile (fun ch => ch ≠ '\n')) line
      else if c.isDigit then
        let ds := (c :: rest).takeWhile (fun ch => ch.isDigit)
        ⟨"NUMBER", .num (digitsToNat ds), line⟩ ::
          lexGo fuel ((c :: rest).dropWhile (fun ch => ch.isDigit)) line
      else if c.isAlpha || c = '_' then
        let ident := (c :: rest).takeWhile (fun ch => ch.isAlphanum || ch = '_')
        let rem := (c :: rest).dropWhile (fun ch => ch.isAlphanum || ch = '_')
        let s := String.mk ident
        if keywords.contains s then
          ⟨"KEYWORD", .str s, line⟩ :: lexGo fuel rem line
        else
          ⟨"IDENT", .str s, line⟩ :: lexGo fuel rem line
      else if c = '"' then
        let (content, rem) := scanStr rest
        ⟨"STRING", .str (String.mk content), line⟩ :: lexGo fuel rem line
      else if !rest.isEmpty &&
          (["==", "!=", "<=", ">=", "++", "--"].map String.data).contains [c, rest.headD ' '] then
        ⟨"OP", .str (String.mk [c, rest.headD ' ']), line⟩ :: lexGo fuel rest.tail line
      else if "+-*/%=<>!".data.contains c then
        ⟨"OP", .str (String.mk [c]), line⟩ :: lexGo fuel rest line
      else if "();{},".data.contains c then
        ⟨"PUNCT", .str (String.mk [c]), line⟩ :: lexGo fuel rest line
      else
        lexGo fuel rest line

/-- `Lexer.tokenize`: produce the full token sequence for a source string. -/
def tokenize (code : String) : List Token :=
  lexGo (code.length + 1) code.data 1

/-! ## Syntax tree (the dict-based nodes of `Toycc.py`, as a closed inductive) -/

mutual

/-- Expression nodes: Number, String, Var, Assign, BinOp, PreOp, PostOp, Call. -/
inductive Expr where
  | number (value : Nat)
  | strLit (value : String)
  | var (name : String)
  | assign (left right : Expr)
  | binop (op : String) (left right : Expr)
  | preop (op : String) (operand : Expr)
  | postop (op : String) (operand : Expr)
  | call (name : String) (args : List Expr)
deriving Repr

/-- Statement nodes: Declaration, ExprStmt, If, While, For, Return. -/
inductive Stmt where
  | decl (name : String) (init : Option Expr)
  | exprStmt (expr : Expr)
  | ifS (condition : Expr) (thenB : List Stmt) (elseB : Option (List Stmt))
  | whileS (condition : Expr) (body : List Stmt)
  | forS (init : Option ForInit) (condition : Option Expr) (update : Option Expr)
      (body : List Stmt)
  | ret (value : Option Expr)
deriving Repr

/-- The `for`-initialiser is either a Declaration statement or an expression. -/
inductive ForInit where
  | declI (name : String) (init : Option Expr)
  | exprI (e : Expr)
deriving Repr

end

/-- Function node: return type keyword, name, statement body. -/
structure Func where
  return_type : String
  name : String
  body : List Stmt
deriving Repr

/-- Program node: the ordered sequence of function definitions. -/
structure Program where
  functions : List Func
deriving Repr

/-! ## Parser (`Toycc.py`, class `Parser`)

The Python parser threads a position into the token list; the embedding
threads the remaining token list instead. Each parsing function takes a fuel
argument decremented on every nested call; the top-level entry supplies fuel
that concrete parses never exhaust (exhaustion yields a parse error). -/

/-- Extract the text of a token value (IDENT/KEYWORD/OP/PUNCT values are
always strings in the source; a NUMBER value never reaches these uses). -/
def tokText : TokValue → String
  | .str s => s
  | .num n => toString n

/-- Python `Parser.consume`: check the optional expected type and value,
then advance; raises on mismatch or end of input. -/
def pConsume (expTy : Option String) (expVal : Option TokValue) (toks : List Token) :
    Except String (Token × List Token) :=
  match toks with
  | [] => .error "Unexpected end of input"
  | t :: rest =>
    if expTy.isSome ∧ expTy ≠ some t.type then
      .error ("Expected " ++ expTy.getD "" ++ ", got " ++ t.type)
    else if expVal.isSome ∧ expVal ≠ some t.value then
      .error "Expected value mismatch"
    else
      .ok (t, rest)

/-- Whether the head token has the given type and text value. -/
def peekIs (ty : String) (v : String) (toks : List Token) : Bool :=
  match toks with
  | [] => false
  | t :: _ => t.type == ty && t.value == .str v

mutual

/-- Python `Parser.parse_expression` (assignment level). -/
def parseExpression : Nat → List Token → Except String (Expr × List Token)
  | 0, _ => .error "parser fuel exhausted"
  | fuel + 1, toks => do
    let (e, toks) ← parseComparison fuel toks
    if peekIs "OP" "=" toks then do
      let (_, toks) ← pConsume (some "OP") (some (.str "=")) toks
      let (r, toks) ← parseExpression fuel toks
      pure (.assign e r, toks)
    else
      pure (e, toks)

/-- Python `Parser.parse_comparison` left-fold loop. -/
def parseCompLoop : Nat → Expr → List Token → Except String (Expr × List Token)
  | 0, _, _ => .error "parser fuel exhausted"
  | fuel + 1, left, toks =>
    match toks with
    | t :: rest =>
      if t.type == "OP" &&
          (["<", ">", "==", "!=", "<=", ">="].map TokValue.str).contains t.value then do
        let (r, toks) ← parseAdditive fuel rest
        parseCompLoop fuel (.binop (tokText t.value) left r) toks
      else
        pure (left, toks)
    | [] => pure (left, toks)

/-- Python `Parser.parse_comparison`. -/
def parseComparison : Nat → List Token → Except String (Expr × List Token)
  | 0, _ => .error "parser fuel exhausted"
  | fuel + 1, toks => do
    let (l, toks) ← parseAdditive fuel toks
    parseCompLoop fuel l toks

/-- Python `Parser.parse_additive` left-fold loop. -/
def parseAddLoop : Nat → Expr → List Token → Except String (Expr × List Token)
  | 0, _, _ => .error "parser fuel exhausted"
  | fuel + 1, left, toks =>
    match toks with
    | t :: rest =>
      if t.type == "OP" && (t.value == TokValue.str "+" || t.value == TokValue.str "-") then do
        let (r, toks) ← parseMultiplicative fuel rest
        parseAddLoop fuel (.binop (tokText t.value) left r) toks
      else
        pure (left, toks)
    | [] => pure (left, toks)

/-- Python `Parser.parse_additive`. -/
def parseAdditive : Nat → List Token → Except String (Expr × List Token)
  | 0, _ => .error "parser fuel exhausted"
  | fuel + 1, toks => do
    let (l, toks) ← parseMultiplicative fuel toks
    parseAddLoop fuel l toks

/-- Python `Parser.parse_multiplicative` left-fold loop. -/
def parseMulLoop : Nat → Expr → List Token → Except String (Expr × List Token)
  | 0, _, _ => .error "parser fuel exhausted"
  | fuel + 1, left, toks =>
    match toks with
    | t :: rest =>
      if t.type == "OP" && (["*", "/", "%"].map TokValue.str).contains t.value then do
        let (r, toks) ← parseUnary fuel rest
        parseMulLoop fuel (.binop (tokText t.value) left r) toks
      else
        pure (left, toks)
    | [] => pure (left, toks)

/-- Python `Parser.parse_multiplicative`. -/
def parseMultiplicative : Nat → List Token → Except String (Expr × List Token)
  | 0, _ => .error "parser fuel exhausted"
  | fuel + 1, toks => do
    let (l, toks) ← parseUnary fuel toks
    parseMulLoop fuel l toks

/-- Python `Parser.parse_unary`: prefix `++`/`--`, otherwise primary with an
optional postfix `++`/`--`. -/
def parseUnary : Nat → List Token → Except String (Expr × List Token)
  | 0, _ => .error "parser fuel exhausted"
  | fuel + 1, toks =>
    match toks with
    | t :: rest =>
      if t.type == "OP" && (t.value == TokValue.str "++" || t.value == TokValue.str "--") then do
        let (operand, toks) ← parsePrimary fuel rest
        pure (.preop (tokText t.value) operand, toks)
      else do
        let (e, toks) ← parsePrimary fuel toks
        match toks with
        | t' :: rest' =>
          if t'.type == "OP" &&
              (t'.value == TokValue.str "++" || t'.value == TokValue.str "--") then
            pure (.postop (tokText t'.value) e, rest')
          else
            pure (e, toks)
        | [] => pure (e, toks)
    | [] => do
      let (e, toks) ← parsePrimary fuel toks
      pure (e, toks)

/-- Python call-argument loop: `expr (, expr)*`. -/
def parseArgsLoop : Nat → List Expr → List Token → Except String (List Expr × List Token)
  | 0, _, _ => .error "parser fuel exhausted"
  | fuel + 1, args, toks =>
    if peekIs "PUNCT" "," toks then do
      let (_, toks) ← pConsume (some "PUNCT") (some (.str ",")) toks
      let (a, toks) ← parseExpression fuel toks
      parseArgsLoop fuel (args ++ [a]) toks
    else
      pure (args, toks)

/-- Python `Parser.parse_primary`. -/
def parsePrimary : Nat → List Token → Except String (Expr × List Token)
  | 0, _ => .error "parser fuel exhausted"
  | fuel + 1, toks =>
    match toks with
    | [] => .error "Unexpected token: None"
    | t :: rest =>
      if t.type == "NUMBER" then
        match t.value with
        | .num n => pure (.number n, rest)
        | .str _ => pure (.number 0, rest)
      else if t.type == "STRING" then
        pure (.strLit (tokText t.value), rest)
      else if t.type == "IDENT" then
        if peekIs "PUNCT" "(" rest then do
          let (_, toks) ← pConsume (some "PUNCT") (some (.str "(")) rest
          if peekIs "PUNCT" ")" toks then do
            let (_, toks) ← pConsume (some "PUNCT") (some (.str ")")) toks
            pure (.call (tokText t.value) [], toks)
          else do
            let (a, toks) ← parseExpression fuel toks
            let (args, toks) ← parseArgsLoop fuel [a] toks
            let (_, toks) ← pConsume (some "PUNCT") (some (.str ")")) toks
            pure (.call (tokText t.value) args, toks)
        else
          pure (.var (tokText t.value), rest)
      else if t.type == "PUNCT" && t.value == TokValue.str "(" then do
        let (e, toks) ← parseExpression fuel rest
        let (_, toks) ← pConsume (some "PUNCT") (some (.str ")")) toks
        pure (e, toks)
      else
        .error ("Unexpected token: " ++ t.type)

end

mutual

/-- Python block loop `while not '}' : parse_statement` (shared by bodies). -/
def parseBlock : Nat → List Token → Except String (List Stmt × List Token)
  | 0, _ => .error "parser fuel exhausted"
  | fuel + 1, toks =>
    if peekIs "PUNCT" "\x7d" toks then
      pure ([], toks)
    else do
      let (s, toks) ← parseStatement fuel toks
      let (ss, toks) ← parseBlock fuel toks
      pure (s :: ss, toks)

/-- Python `Parser.parse_statement`. -/
def parseStatement : Nat → List Token → Except String (Stmt × List Token)
  | 0, _ => .error "parser fuel exhausted"
  | fuel + 1, toks =>
    match toks with
    | [] => .error "AttributeError: NoneType has no attribute type"
    | t :: _ =>
      if t.type == "KEYWORD" && t.value == TokValue.str "int" then
        parseDeclaration fuel toks
      else if t.type == "KEYWORD" && t.value == TokValue.str "if" then
        parseIf fuel toks
      else if t.type == "KEYWORD" && t.value == TokValue.str "while" then
        parseWhile fuel toks
      else if t.type == "KEYWORD" && t.value == TokValue.str "for" then
        parseFor fuel toks
      else if t.type == "KEYWORD" && t.value == TokValue.str "return" then
        parseReturn fuel toks
      else do
        let (e, toks) ← parseExpression fuel toks
        let (_, toks) ← pConsume (some "PUNCT") (some (.str ";")) toks
        pure (.exprStmt e, toks)

/-- Python `Parser.parse_declaration`. -/
def parseDeclaration : Nat → List Token → Except String (Stmt × List Token)
  | 0, _ => .error "parser fuel exhausted"
  | fuel + 1, toks => do
    let (_, toks) ← pConsume (some "KEYWORD") (some (.str "int")) toks
    let (nameTok, toks) ← pConsume (some "IDENT") none toks
    if peekIs "OP" "=" toks then do
      let (_, toks) ← pConsume (some "OP") (some (.str "=")) toks
      let (e, toks) ← parseExpression fuel toks
      let (_, toks) ← pConsume (some "PUNCT") (some (.str ";")) toks
      pure (.decl (tokText nameTok.value) (some e), toks)
    else do
      let (_, toks) ← pConsume (some "PUNCT") (some (.str ";")) toks
      pure (.decl (tokText nameTok.value) none, toks)

/-- Python brace-or-single-statement body (shared shape of if/else/while/for). -/
def parseBody : Nat → List Token → Except String (List Stmt × List Token)
  | 0, _ => .error "parser fuel exhausted"
  | fuel + 1, toks =>
    if peekIs "PUNCT" "\x7b" toks then do
      let (_, toks) ← pConsume (some "PUNCT") (some (.str "\x7b")) toks
      let (b, toks) ← parseBlock fuel toks
      let (_, toks) ← pConsume (some "PUNCT") (some (.str "\x7d")) toks
      pure (b, toks)
    else do
      let (s, toks) ← parseStatement fuel toks
      pure ([s], toks)

/-- Python `Parser.parse_if`. -/
def parseIf : Nat → List Token → Except String (Stmt × List Token)
  | 0, _ => .error "parser fuel exhausted"
  | fuel + 1, toks => do
    let (_, toks) ← pConsume (some "KEYWORD") (some (.str "if")) toks
    let (_, toks) ← pConsume (some "PUNCT") (some (.str "(")) toks
    let (cond, toks) ← parseExpression fuel toks
    let (_, toks) ← pConsume (some "PUNCT") (some (.str ")")) toks
    let (thenB, toks) ← parseBody fuel toks
    if peekIs "KEYWORD" "else" toks then do
      let (_, toks) ← pConsume (some "KEYWORD") (some (.str "else")) toks
      let (elseB, toks) ← parseBody fuel toks
      pure (.ifS cond thenB (some elseB), toks)
    else
      pure (.ifS cond thenB none, toks)

/-- Python `Parser.parse_while`. -/
def parseWhile : Nat → List Token → Except String (Stmt × List Token)
  | 0, _ => .error "parser fuel exhausted"
  | fuel + 1, toks => do
    let (_, toks) ← pConsume (some "KEYWORD") (some (.str "while")) toks
    let (_, toks) ← pConsume (some "PUNCT") (some (.str "(")) toks
    let (cond, toks) ← parseExpression fuel toks
    let (_, toks) ← pConsume (some "PUNCT") (some (.str ")")) toks
    let (body, toks) ← parseBody fuel toks
    pure (.whileS cond body, toks)

/-- Python `Parser.parse_for`. -/
def parseFor : Nat → List Token → Except String (Stmt × List Token)
  | 0, _ => .error "parser fuel exhausted"
  | fuel + 1, toks => do
    let (_, toks) ← pConsume (some "KEYWORD") (some (.str "for")) toks
    let (_, toks) ← pConsume (some "PUNCT") (some (.str "(")) toks
    let (init, toks) ←
      if peekIs "PUNCT" ";" toks then do
        let (_, toks) ← pConsume (some "PUNCT") (some (.str ";")) toks
        pure ((none : Option ForInit), toks)
      else
        match toks with
        | [] => .error "AttributeError: NoneType has no attribute type"
        | t :: _ =>
          if t.type == "KEYWORD" && t.value == TokValue.str "int" then do
            let (d, toks) ← parseDeclaration fuel toks
            match d with
            | .decl n i => pure (some (ForInit.declI n i), toks)
            | _ => .error "impossible declaration shape"
          else do
            let (e, toks) ← parseExpression fuel toks
            let (_, toks) ← pConsume (some "PUNCT") (some (.str ";")) toks
            pure (some (ForInit.exprI e), toks)
    let (cond, toks) ←
      if peekIs "PUNCT" ";" toks then
        pure ((none : Option Expr), toks)
      else do
        let (c, toks) ← parseExpression fuel toks
        pure (some c, toks)
    let (_, toks) ← pConsume (some "PUNCT") (some (.str ";")) toks
    let (update, toks) ←
      if peekIs "PUNCT" ")" toks then
        pure ((none : Option Expr), toks)
      else do
        let (u, toks) ← parseExpression fuel toks
        pure (some u, toks)
    let (_, toks) ← pConsume (some "PUNCT") (some (.str ")")) toks
    let (body, toks) ← parseBody fuel toks
    pure (.forS init cond update body, toks)

/-- Python `Parser.parse_return`. -/
def parseReturn : Nat → List Token → Except String (Stmt × List Token)
  | 0, _ => .error "parser fuel exhausted"
  | fuel + 1, toks => do
    let (_, toks) ← pConsume (some "KEYWORD") (some (.str "return")) toks
    if peekIs "PUNCT" ";" toks then do
      let (_, toks) ← pConsume (some "PUNCT") (some (.str ";")) toks
      pure (.ret none, toks)
    else do
      let (e, toks) ← parseExpression fuel toks
      let (_, toks) ← pConsume (some "PUNCT") (some (.str ";")) toks
      pure (.ret (some e), toks)

end

/-- Python parameter-skipping loop inside `parse_function`: consume every
token until a `)` punctuation token (or end of input) is at the head. -/
def skipParams : Nat → List Token → List Token
  | 0, toks => toks
  | fuel + 1, toks =>
    match toks with
    | [] => []
    | t :: rest =>
      if t.type == "PUNCT" && t.value == TokValue.str ")" then t :: rest
      else skipParams fuel rest

/-- Python `Parser.parse_function`. -/
def parseFunction (fuel : Nat) (toks : List Token) : Except String (Func × List Token) := do
  let (rt, toks) ← pConsume (some "KEYWORD") none toks
  let (nameTok, toks) ← pConsume (some "IDENT") none toks
  let (_, toks) ← pConsume (some "PUNCT") (some (.str "(")) toks
  let toks := skipParams (toks.length + 1) toks
  let (_, toks) ← pConsume (some "PUNCT") (some (.str ")")) toks
  let (_, toks) ← pConsume (some "PUNCT") (some (.str "\x7b")) toks
  let (body, toks) ← parseBlock fuel toks
  let (_, toks) ← pConsume (some "PUNCT") (some (.str "\x7d")) toks
  pure (⟨tokText rt.value, tokText nameTok.value, body⟩, toks)

/-- Python `Parser.parse` top-level loop over functions. -/
def parseProgramLoop : Nat → List Token → Except String (List Func)
  | 0, _ => .error "parser fuel exhausted"
  | fuel + 1, toks =>
    match toks with
    | [] => pure []
    | _ => do
      let (f, toks) ← parseFunction fuel toks
      let fs ← parseProgramLoop fuel toks
      pure (f :: fs)

/-- Python `Parser.parse`: the whole token sequence to a `Program`. -/
def parse (toks : List Token) : Except String Program := do
  let fs ← parseProgramLoop (10 * toks.length + 100) toks
  pure ⟨fs⟩

/-! ## Code generator (`Toycc.py`, class `CodeGen`)

State mirrors the `CodeGen` instance fields. `label_trace` is a ghost field
recording, in order, every label string returned by `new_label`; it changes
nothing observable and exists so the label-uniqueness claim can name exactly
the control-construct labels. -/

structure CGState where
  output : List String
  data : List String
  label_count : Nat
  string_count : Nat
  vars : List (String × Int)
  stack_offset : Nat
  label_trace : List String
deriving Repr

/-- A fresh `CodeGen` instance. -/
def cgInit : CGState :=
  { output := [], data := [], label_count := 0, string_count := 0,
    vars := [], stack_offset := 0, label_trace := [] }

/-- Python `CodeGen.new_label`: `f"{pfx}{self.label_count}"`, counter bumped. -/
def new_label (pfx : String) (st : CGState) : String × CGState :=
  let label := pfx ++ Nat.repr st.label_count
  (label, { st with label_count := st.label_count + 1,
                    label_trace := st.label_trace ++ [label] })

/-- Python `CodeGen.add_string`: a fresh `strN` data label for a literal. -/
def add_string (s : String) (st : CGState) : String × CGState :=
  let label := "str" ++ Nat.repr st.string_count
  (label, { st with string_count := st.string_count + 1,
                    data := st.data ++ [label ++ ": .asciiz \"" ++ s ++ "\""] })

/-- Python `CodeGen.emit`. -/
def emit (code : String) (st : CGState) : CGState :=
  { st with output := st.output ++ [code] }

/-- The instruction lines emitted for a `BinOp` operator once both operands
sit in `$t0`/`$t1` (the operator chain of `CodeGen.gen_expr`, lines 541-572
of `Toycc.py`); an unrecognized operator emits nothing. -/
def binopCode (op : String) : List String :=
  if op = "+" then ["    add $t0, $t0, $t1"]
  else if op = "-" then ["    sub $t0, $t0, $t1"]
  else if op = "*" then ["    mul $t0, $t0, $t1"]
  else if op = "/" then ["    div $t0, $t1", "    mflo $t0"]
  else if op = "%" then ["    div $t0, $t1", "    mfhi $t0"]
  else if op = "<" then ["    slt $t0, $t0, $t1"]
  else if op = ">" then ["    slt $t0, $t1, $t0"]
  else if op = "==" then
    ["    sub $t0, $t0, $t1", "    slt $t2, $t0, $zero", "    slt $t3, $zero, $t0",
     "    or $t0, $t2, $t3", "    xori $t0, $t0, 1"]
  else if op = "!=" then
    ["    sub $t0, $t0, $t1", "    sltu $t0, $zero, $t0", "    andi $t0, $t0, 1"]
  else if op = "<=" then ["    slt $t0, $t1, $t0", "    xori $t0, $t0, 1"]
  else if op = ">=" then ["    slt $t0, $t0, $t1", "    xori $t0, $t0, 1"]
  else []

/-- Append a list of lines to the output (repeated `emit`). -/
def emitAll (lines : List String) (st : CGState) : CGState :=
  { st with output := st.output ++ lines }

/-- Python `CodeGen.gen_expr`. Fuel bounds nesting depth; `sizeOf` of the
expression dominates it, so the fuel supplied by `generate` never runs out. -/
def gen_expr : Nat → Expr → CGState → Except String CGState
  | 0, _, _ => .error "codegen fuel exhausted"
  | fuel + 1, e, st =>
    match e with
    | .number n => .ok (emit ("    li $t0, " ++ Nat.repr n) st)
    | .strLit s =>
      let (label, st) := add_string s st
      .ok (emit ("    la $t0, " ++ label) st)
    | .var name =>
      match st.vars.lookup name with
      | some offset => .ok (emit ("    lw $t0, " ++ toString offset ++ "($fp)") st)
      | none => .error ("KeyError: " ++ name)
    | .assign left right => do
      let st ← gen_expr fuel right st
      match left with
      | .var name =>
        match st.vars.lookup name with
        | some offset => .ok (emit ("    sw $t0, " ++ toString offset ++ "($fp)") st)
        | none => .error ("KeyError: " ++ name)
      | _ => .ok st
    | .binop op left right => do
      let st ← gen_expr fuel left st
      let st := emitAll ["    addi $sp, $sp, -4", "    sw $t0, 0($sp)"] st
      let st ← gen_expr fuel right st
      let st := emitAll ["    move $t1, $t0", "    lw $t0, 0($sp)", "    addi $sp, $sp, 4"] st
      .ok (emitAll (binopCode op) st)
    | .preop op operand =>
      match operand with
      | .var name =>
        match st.vars.lookup name with
        | some offset =>
          let st := emit ("    lw $t0, " ++ toString offset ++ "($fp)") st
          let st := emit (if op = "++" then "    addi $t0, $t0, 1" else "    addi $t0, $t0, -1") st
          .ok (emit ("    sw $t0, " ++ toString offset ++ "($fp)") st)
        | none => .error ("KeyError: " ++ name)
      | _ => .error "KeyError: name"
    | .postop op operand =>
      match operand with
      | .var name =>
        match st.vars.lookup name with
        | some offset =>
          let st := emit ("    lw $t0, " ++ toString offset ++ "($fp)") st
          let st := emit "    move $t2, $t0" st
          let st := emit (if op = "++" then "    addi $t0, $t0, 1" else "    addi $t0, $t0, -1") st
          let st := emit ("    sw $t0, " ++ toString offset ++ "($fp)") st
          .ok (emit "    move $t0, $t2" st)
        | none => .error ("KeyError: " ++ name)
      | _ => .error "KeyError: name"
    | .call name args =>
      if name = "print_int" then
        match args with
        | a :: _ => do
          let st ← gen_expr fuel a st
          .ok (emitAll ["    move $a0, $t0", "    jal print_int"] st)
        | [] => .error "IndexError: list index out of range"
      else if name = "print_str" then
        match args with
        | a :: _ => do
          let st ← gen_expr fuel a st
          .ok (emitAll ["    move $a0, $t0", "    jal print_str"] st)
        | [] => .error "IndexError: list index out of range"
      else
        .ok st

/-- The `if stmt['update']:` block of the For branch (and the general
optional-expression pattern): generate the expression when present. -/
def gen_opt_expr (fuel : Nat) (o : Option Expr) (st : CGState) : Except String CGState :=
  match o with
  | some e => gen_expr fuel e st
  | none => .ok st

/-- The `if stmt['condition']:` block of the For branch: generate the
condition and the branch-to-end when a condition is present. -/
def gen_for_cond (fuel : Nat) (o : Option Expr) (end_lbl : String) (st : CGState) :
    Except String CGState :=
  match o with
  | some c => do
    let st ← gen_expr fuel c st
    pure (emit ("    beq $t0, $zero, " ++ end_lbl) st)
  | none => .ok st

mutual

/-- Python `CodeGen.gen_stmt`. -/
def gen_stmt : Nat → Stmt → CGState → Except String CGState
  | 0, _, _ => .error "codegen fuel exhausted"
  | fuel + 1, s, st =>
    match s with
    | .decl name init =>
      let st := emit "    addi $sp, $sp, -4" st
      let st := { st with stack_offset := st.stack_offset + 4,
                          vars := (name, -(st.stack_offset + 4 : Int)) :: st.vars }
      match init with
      | some e => do
        let st ← gen_expr fuel e st
        match st.vars.lookup name with
        | some offset => .ok (emit ("    sw $t0, " ++ toString offset ++ "($fp)") st)
        | none => .error ("KeyError: " ++ name)
      | none => .ok st
    | .exprStmt e => gen_expr fuel e st
    | .ifS cond thenB elseB => do
      let (else_lbl, st) := new_label "else" st
      let (end_lbl, st) := new_label "endif" st
      let st ← gen_expr fuel cond st
      let st := emit ("    beq $t0, $zero, " ++ else_lbl) st
      let st ← gen_stmts fuel thenB st
      let st := emit ("    j " ++ end_lbl) st
      let st := emit (else_lbl ++ ":") st
      let st ←
        match elseB with
        | some es => gen_stmts fuel es st
        | none => pure st
      .ok (emit (end_lbl ++ ":") st)
    | .whileS cond body => do
      let (loop_lbl, st) := new_label "while" st
      let (end_lbl, st) := new_label "endwhile" st
      let st := emit (loop_lbl ++ ":") st
      let st ← gen_expr fuel cond st
      let st := emit ("    beq $t0, $zero, " ++ end_lbl) st
      let st ← gen_stmts fuel body st
      let st := emit ("    j " ++ loop_lbl) st
      .ok (emit (end_lbl ++ ":") st)
    | .forS init cond update body => do
      let (loop_lbl, st) := new_label "for" st
      let (end_lbl, st) := new_label "endfor" st
      let st ←
        match init with
        | some (.declI n i) => gen_stmt fuel (.decl n i) st
        | some (.exprI e) => gen_expr fuel e st
        | none => pure st
      let st := emit (loop_lbl ++ ":") st
      let st ← gen_for_cond fuel cond end_lbl st
      let st ← gen_stmts fuel body st
      let st ← gen_opt_expr fuel update st
      let st := emit ("    j " ++ loop_lbl) st
      .ok (emit (end_lbl ++ ":") st)
    | .ret value => do
      let st ←
        match value with
        | some e => do
          let st ← gen_expr fuel e st
          pure (emit "    move $v0, $t0" st)
        | none => pure st
      .ok (emit "    j main_exit" st)

/-- Sequential generation over a statement list (the `for stmt in ...` loops). -/
def gen_stmts : Nat → List Stmt → CGState → Except String CGState
  | 0, _, _ => .error "codegen fuel exhausted"
  | _ + 1, [], st => .ok st
  | fuel + 1, s :: ss, st => do
    let st ← gen_stmt fuel s st
    gen_stmts fuel ss st

end

/-- Python `CodeGen.gen_function`: prologue, per-function variable reset,
body, single epilogue under the label `name_exit`. -/
def gen_function (fuel : Nat) (f : Func) (st : CGState) : Except String CGState := do
  let st := emitAll [f.name ++ ":", "    addi $sp, $sp, -8", "    sw $ra, 4($sp)",
    "    sw $fp, 0($sp)", "    move $fp, $sp"] st
  let st := { st with vars := [], stack_offset := 0 }
  let st ← gen_stmts fuel f.body st
  .ok (emitAll [f.name ++ "_exit:", "    move $sp, $fp", "    lw $fp, 0($sp)",
    "    lw $ra, 4($sp)", "    addi $sp, $sp, 8", "    jr $ra", ""] st)

/-- Generation loop over all functions of the program. -/
def gen_functions (fuel : Nat) : List Func → CGState → Except String CGState
  | [], st => .ok st
  | f :: fs, st => do
    let st ← gen_function fuel f st
    gen_functions fuel fs st

/-- Python `CodeGen.generate`: run generation on a fresh instance and
assemble the final text (data section, text section, the two builtin
runtime routines); returns the text together with the final generator
state. The caller supplies fuel dominating the nesting depth of the tree
(the pipeline passes a bound derived from the source length), so the fuel
guard in `gen_stmt`/`gen_expr` is never reached on parser-produced trees. -/
def generate (fuel : Nat) (p : Program) : Except String (String × CGState) := do
  let st ← gen_functions fuel p.functions cgInit
  let result := [".data"] ++ st.data ++ [""] ++ [".text", ".globl main", ""] ++ st.output
      ++ [""] ++ ["print_int:", "    li $v0, 1", "    syscall", "    jr $ra", "",
                  "print_str:", "    li $v0, 4", "    syscall", "    jr $ra"]
  pure (String.intercalate "\n" result, st)

/-! ## Simulator (`mips_sim.py`, class `MIPSInterpreter`)

Registers are a total function `Nat → Nat` holding already-masked 32-bit
values (Python's list of 32 slots is never iterated, only indexed through
`reg_names`). Memory is an association list from `Int` addresses to byte
values, reproducing the Python dict: insertion conses in front, lookup takes
the first hit, a missing key reads as 0. -/

/-- The canonical register-name table of `MIPSInterpreter.__init__`. -/
def reg_names : List (String × Nat) :=
  [("$zero", 0), ("$at", 1), ("$v0", 2), ("$v1", 3),
   ("$a0", 4), ("$a1", 5), ("$a2", 6), ("$a3", 7),
   ("$t0", 8), ("$t1", 9), ("$t2", 10), ("$t3", 11),
   ("$t4", 12), ("$t5", 13), ("$t6", 14), ("$t7", 15),
   ("$s0", 16), ("$s1", 17), ("$s2", 18), ("$s3", 19),
   ("$s4", 20), ("$s5", 21), ("$s6", 22), ("$s7", 23),
   ("$t8", 24), ("$t9", 25), ("$k0", 26), ("$k1", 27),
   ("$gp", 28), ("$sp", 29), ("$fp", 30), ("$ra", 31)]

/-- Byte-addressable sparse memory: Python dict with default-0 reads. -/
abbrev Mem : Type := List (Int × Nat)

/-- Python `self.memory.get(addr, 0)`. -/
def memGet (m : Mem) (addr : Int) : Nat :=
  match List.lookup addr m with
  | some b => b
  | none => 0

/-- Python `self.memory[addr] = v` (dict insert = shadow earlier entries). -/
def memSet (addr : Int) (v : Nat) (m : Mem) : Mem :=
  (addr, v) :: m

/-- Full simulator state (the `MIPSInterpreter` instance fields, plus the
console output accumulated by the two builtin print routines). -/
structure MState where
  regs : Nat → Nat
  memory : Mem
  data_strings : List (String × String)
  labels : List (String × Nat)
  pc : Nat
  instructions : List String
  running : Bool
  lo : Nat
  hi : Nat
  output : String

/-- Fresh interpreter state (`__init__`: everything zeroed/empty). -/
def msInit : MState :=
  { regs := fun _ => 0, memory := ([] : List (Int × Nat)), data_strings := [],
    labels := [], pc := 0, instructions := [], running := true,
    lo := 0, hi := 0, output := "" }

/-- Python `MIPSInterpreter.get_reg`: slot 0 reads as 0; unknown names raise. -/
def get_reg (name : String) (st : MState) : Except String Nat :=
  match reg_names.lookup name with
  | some idx => if idx = 0 then .ok 0 else .ok (st.regs idx)
  | none => .error ("Unknown register: " ++ name)

/-- Python `MIPSInterpreter.set_reg`: mask to 32 bits (`& 0xFFFFFFFF`, i.e.
`mod 2^32` on the possibly-negative value); writes to slot 0 and to unknown
names are silently dropped. -/
def set_reg (name : String) (value : Int) (st : MState) : MState :=
  match reg_names.lookup name with
  | some idx =>
    if idx ≠ 0 then
      { st with regs := fun j => if j = idx then (value % 4294967296).toNat else st.regs j }
    else st
  | none => st

/-- Python `MIPSInterpreter.read_mem`: little-endian word from four bytes. -/
def read_mem (addr : Int) (m : Mem) : Nat :=
  let w0 := 0 ||| (memGet m addr <<< (0 * 8))
  let w1 := w0 ||| (memGet m (addr + 1) <<< (1 * 8))
  let w2 := w1 ||| (memGet m (addr + 2) <<< (2 * 8))
  w2 ||| (memGet m (addr + 3) <<< (3 * 8))

/-- Python `MIPSInterpreter.write_mem`: little-endian word to four bytes. -/
def write_mem (addr : Int) (word : Nat) (m : Mem) : Mem :=
  let m := memSet addr ((word >>> (0 * 8)) &&& 0xFF) m
  let m := memSet (addr + 1) ((word >>> (1 * 8)) &&& 0xFF) m
  let m := memSet (addr + 2) ((word >>> (2 * 8)) &&& 0xFF) m
  memSet (addr + 3) ((word >>> (3 * 8)) &&& 0xFF) m

/-- Word characters of the regex `\w`. -/
def isWordChar (c : Char) : Bool := c.isAlphanum || c = '_'

/-- Python `MIPSInterpreter.parse_offset_reg`: the anchored regex
`(-?\d+)\((\$\w+)\)` (trailing characters permitted, as with `re.match`). -/
def parse_offset_reg (operand : String) : Except String (Int × String) :=
  let fail : Except String (Int × String) :=
    .error ("Invalid offset(reg): " ++ operand)
  let (neg, l) : Bool × List Char :=
    match operand.data with
    | '-' :: rest => (true, rest)
    | l => (false, l)
  let ds := l.takeWhile (fun c => c.isDigit)
  let l := l.dropWhile (fun c => c.isDigit)
  if ds.isEmpty then fail else
  match l with
  | '(' :: '$' :: l2 =>
    let w := l2.takeWhile isWordChar
    let l3 := l2.dropWhile isWordChar
    if w.isEmpty then fail else
    match l3 with
    | ')' :: _ =>
      let off : Int := if neg then -(digitsToNat ds : Int) else (digitsToNat ds : Int)
      .ok (off, String.mk ('$' :: w))
    | _ => fail
  | _ => fail

/-- Store a data-section string byte-by-byte and null-terminate it (the
materialization loop of the `la` branch of `execute`). -/
def storeString (addr : Int) : List Char → Mem → Mem
  | [], m => memSet addr 0 m
  | c :: cs, m => storeString (addr + 1) cs (memSet addr c.toNat m)

/-- The synthetic address at which `la` materializes a data-section string:
`0x10000000` plus the length of the label NAME (not of the content). -/
def laAddr (label : String) : Int := 0x10000000 + (label.length : Int)

/-- Read the null-terminated string at `addr` (the `print_str` loop). The
fuel `m.length + 1` is never exhausted: among `m.length + 1` consecutive
addresses at least one is absent from the finite dict and so reads as 0. -/
def readCString (m : Mem) : Nat → Int → List Char
  | 0, _ => []
  | fuel + 1, addr =>
    let b := memGet m addr
    if b = 0 then []
    else Char.ofNat b :: readCString m fuel (addr + 1)

/-- Advance past the current instruction (the shared `self.pc += 1`). -/
def bump (st : MState) : MState := { st with pc := st.pc + 1 }

/-- Python `print(val, end='')` for the signed value of `$a0`. -/
def printIntVal (v : Nat) : String :=
  toString (if v &&& 0x80000000 ≠ 0 then (v : Int) - 0x100000000 else (v : Int))

/-- Fetch operand `i` (Python list indexing raises past the end). -/
def getOp (ops : List String) (i : Nat) : Except String String :=
  match ops.get? i with
  | some o => .ok o
  | none => .error "IndexError: list index out of range"

/-- The opcode dispatch of `MIPSInterpreter.execute`, acting on the already
tokenized opcode and operand list. Branches mirror the Python `elif` chain,
including the silent fall-through (plain `pc + 1`) on unknown opcodes. -/
def exec_inst (op : String) (ops : List String) (st : MState) : Except String MState :=
  if op = "li" then do
    let o0 ← getOp ops 0
    let o1 ← getOp ops 1
    let v ← pyInt o1
    .ok (bump (set_reg o0 v st))
  else if op = "la" then do
    let o0 ← getOp ops 0
    let label ← getOp ops 1
    match st.data_strings.lookup label with
    | some s =>
      let st := set_reg o0 (laAddr label) st
      .ok (bump { st with memory := storeString (laAddr label) s.data st.memory })
    | none => .error ("Unknown label: " ++ label)
  else if op = "move" then do
    let o0 ← getOp ops 0
    let o1 ← getOp ops 1
    let v ← get_reg o1 st
    .ok (bump (set_reg o0 (v : Int) st))
  else if op = "add" then do
    let o0 ← getOp ops 0
    let v1 ← get_reg (← getOp ops 1) st
    let v2 ← get_reg (← getOp ops 2) st
    .ok (bump (set_reg o0 ((v1 : Int) + (v2 : Int)) st))
  else if op = "addi" then do
    let o0 ← getOp ops 0
    let v ← get_reg (← getOp ops 1) st
    let imm ← pyInt (← getOp ops 2)
    .ok (bump (set_reg o0 ((v : Int) + imm) st))
  else if op = "sub" then do
    let o0 ← getOp ops 0
    let v1 ← get_reg (← getOp ops 1) st
    let v2 ← get_reg (← getOp ops 2) st
    .ok (bump (set_reg o0 ((v1 : Int) - (v2 : Int)) st))
  else if op = "mul" then do
    let o0 ← getOp ops 0
    let v1 ← get_reg (← getOp ops 1) st
    let v2 ← get_reg (← getOp ops 2) st
    .ok (bump (set_reg o0 ((v1 : Int) * (v2 : Int)) st))
  else if op = "div" then do
    let v1 ← get_reg (← getOp ops 0) st
    let v2 ← get_reg (← getOp ops 1) st
    if v2 = 0 then .error "Division by zero"
    else .ok (bump { st with lo := v1 / v2, hi := v1 % v2 })
  else if op = "mflo" then do
    let o0 ← getOp ops 0
    .ok (bump (set_reg o0 (st.lo : Int) st))
  else if op = "mfhi" then do
    let o0 ← getOp ops 0
    .ok (bump (set_reg o0 (st.hi : Int) st))
  else if op = "slt" then do
    let o0 ← getOp ops 0
    let v1 ← get_reg (← getOp ops 1) st
    let v2 ← get_reg (← getOp ops 2) st
    let s1 : Int := if v1 &&& 0x80000000 ≠ 0 then (v1 : Int) - 0x100000000 else (v1 : Int)
    let s2 : Int := if v2 &&& 0x80000000 ≠ 0 then (v2 : Int) - 0x100000000 else (v2 : Int)
    .ok (bump (set_reg o0 (if s1 < s2 then 1 else 0) st))
  else if op = "sltu" then do
    let o0 ← getOp ops 0
    let v1 ← get_reg (← getOp ops 1) st
    let v2 ← get_reg (← getOp ops 2) st
    .ok (bump (set_reg o0 (if v1 < v2 then 1 else 0) st))
  else if op = "and" then do
    let o0 ← getOp ops 0
    let v1 ← get_reg (← getOp ops 1) st
    let v2 ← get_reg (← getOp ops 2) st
    .ok (bump (set_reg o0 ((v1 &&& v2 : Nat) : Int) st))
  else if op = "andi" then do
    let o0 ← getOp ops 0
    let v ← get_reg (← getOp ops 1) st
    let imm ← pyInt (← getOp ops 2)
    .ok (bump (set_reg o0 (Int.land (v : Int) imm) st))
  else if op = "or" then do
    let o0 ← getOp ops 0
    let v1 ← get_reg (← getOp ops 1) st
    let v2 ← get_reg (← getOp ops 2) st
    .ok (bump (set_reg o0 ((v1 ||| v2 : Nat) : Int) st))
  else if op = "xori" then do
    let o0 ← getOp ops 0
    let v ← get_reg (← getOp ops 1) st
    let imm ← pyInt (← getOp ops 2)
    .ok (bump (set_reg o0 (Int.xor (v : Int) imm) st))
  else if op = "lw" then do
    let o0 ← getOp ops 0
    let o1 ← getOp ops 1
    let (offset, reg) ← parse_offset_reg o1
    let base ← get_reg reg st
    .ok (bump (set_reg o0 ((read_mem ((base : Int) + offset) st.memory : Nat) : Int) st))
  else if op = "sw" then do
    let o0 ← getOp ops 0
    let o1 ← getOp ops 1
    let (offset, reg) ← parse_offset_reg o1
    let base ← get_reg reg st
    let v ← get_reg o0 st
    .ok (bump { st with memory := write_mem ((base : Int) + offset) v st.memory })
  else if op = "beq" then do
    let v1 ← get_reg (← getOp ops 0) st
    let v2 ← get_reg (← getOp ops 1) st
    let o2 ← getOp ops 2
    if v1 = v2 then
      match st.labels.lookup o2 with
      | some idx => .ok { st with pc := idx }
      | none => .error ("KeyError: " ++ o2)
    else .ok (bump st)
  else if op = "bne" then do
    let v1 ← get_reg (← getOp ops 0) st
    let v2 ← get_reg (← getOp ops 1) st
    let o2 ← getOp ops 2
    if v1 ≠ v2 then
      match st.labels.lookup o2 with
      | some idx => .ok { st with pc := idx }
      | none => .error ("KeyError: " ++ o2)
    else .ok (bump st)
  else if op = "j" then do
    let o0 ← getOp ops 0
    match st.labels.lookup o0 with
    | some idx => .ok { st with pc := idx }
    | none => .error ("KeyError: " ++ o0)
  else if op = "jal" then do
    let o0 ← getOp ops 0
    if o0 = "print_int" then do
      let v ← get_reg "$a0" st
      .ok (bump { st with output := st.output ++ printIntVal v })
    else if o0 = "print_str" then do
      let a ← get_reg "$a0" st
      let chars := readCString st.memory (st.memory.length + 1) (a : Int)
      .ok (bump { st with output := st.output ++ String.mk chars })
    else
      let st := set_reg "$ra" ((st.pc : Int) + 1) st
      match st.labels.lookup o0 with
      | some idx => .ok { st with pc := idx }
      | none => .ok (bump st)
  else if op = "jr" then do
    let o0 ← getOp ops 0
    if o0 = "$ra" then do
      let target ← get_reg "$ra" st
      if target = 0 then .ok { st with running := false }
      else .ok { st with pc := target }
    else .ok (bump st)
  else if op = "nop" then
    .ok (bump st)
  else
    .ok (bump st)

/-- Tokenize one instruction line the way `execute` does: cut at `#`, strip,
split on whitespace, then split each remaining part at commas, strip and
drop empties. Returns `none` when nothing is left (bare `pc += 1`). -/
def parseInst (inst : String) : Option (String × List String) :=
  let noComment := if inst.data.contains '#' then beforeCh '#' inst.data else inst.data
  let t := pyStrip noComment
  match splitWs t with
  | [] => none
  | opChars :: restParts =>
    let pieces := restParts.flatMap (fun part => splitCh ',' part)
    let ops := ((pieces.map pyStrip).filter (fun o => !o.isEmpty)).map String.mk
    some (String.mk opChars, ops)

/-- Python `MIPSInterpreter.execute` on one instruction text. A raise leaves
the instance untouched (every branch reads before it mutates, and no branch
mutates before a possible raise), so the error case carries the input state
unchanged. -/
def execute (inst : String) (st : MState) : Option String × MState :=
  match parseInst inst with
  | none => (none, bump st)
  | some (op, ops) =>
    match exec_inst op ops st with
    | .ok st' => (none, st')
    | .error e => (some e, st)

/-! ## Program loading (`MIPSInterpreter.load_program`) -/

/-- Python `str.rstrip()`. -/
def trimRightWs (l : List Char) : List Char :=
  (l.reverse.dropWhile (fun c => c.isWhitespace)).reverse

/-- Replace every occurrence of backslash-`p2` by `sub` (one Python
`str.replace` pass with a two-character pattern starting with backslash). -/
def replace2 (p2 : Char) (sub : Char) : List Char → List Char
  | [] => []
  | '\\' :: c :: rest =>
    if c = p2 then sub :: replace2 p2 sub rest
    else '\\' :: replace2 p2 sub (c :: rest)
  | c :: rest => c :: replace2 p2 sub rest

/-- The data-section unescape of `load_program`:
`.replace('\\n', '\n').replace('\\t', '\t')`, in that order. -/
def unescapeData (l : List Char) : List Char :=
  replace2 't' '\t' (replace2 'n' '\n' l)

/-- The anchored regex `(\w+):\s*\.asciiz\s*"(.*)` of `load_program`,
returning the label and everything after the opening quote. -/
def parseAsciiz (orig : List Char) : Option (String × List Char) :=
  let w := orig.takeWhile isWordChar
  if w.isEmpty then none else
  match orig.dropWhile isWordChar with
  | ':' :: r1 =>
    let r2 := dropWs r1
    if listStarts ".asciiz".data r2 then
      match dropWs (r2.drop 7) with
      | '"' :: rest => some (String.mk w, rest)
      | _ => none
    else none
  | _ => none

/-- The anchored regex `(\w+):` of `load_program` on a stripped text line. -/
def parseLabel (l : List Char) : Option String :=
  let w := l.takeWhile isWordChar
  if w.isEmpty then none else
  match l.dropWhile isWordChar with
  | ':' :: _ => some (String.mk w)
  | _ => none

/-- Accumulator of the `load_program` line loop. -/
structure LoadAcc where
  in_data : Bool
  in_text : Bool
  cur_label : Option String
  cur_string : List Char
  data_strings : List (String × String)
  labels : List (String × Nat)
  instructions : List String

/-- One iteration of the `load_program` line loop. -/
def loadLine (acc : LoadAcc) (origLine : List Char) : LoadAcc :=
  let line := pyStrip origLine
  if line = ".data".data then
    { acc with in_data := true, in_text := false }
  else if line = ".text".data || listStarts ".globl".data line then
    let acc := { acc with in_data := false, in_text := true }
    match acc.cur_label with
    | some l =>
      let ds := (l, String.mk acc.cur_string) :: acc.data_strings
      { acc with data_strings := ds, cur_label := none, cur_string := [] }
    | none => acc
  else if line.isEmpty || listStarts "#".data line then
    acc
  else if acc.in_data then
    match parseAsciiz origLine with
    | some (label, rest) =>
      let acc :=
        match acc.cur_label with
        | some l =>
          { acc with data_strings := (l, String.mk acc.cur_string) :: acc.data_strings }
        | none => acc
      if listEnds "\"".data rest then
        let ds := (label, String.mk (unescapeData rest.dropLast)) :: acc.data_strings
        { acc with data_strings := ds, cur_label := none, cur_string := [] }
      else
        { acc with cur_label := some label, cur_string := rest ++ ['\n'] }
    | none =>
      match acc.cur_label with
      | some l =>
        let rs := trimRightWs origLine
        if listEnds "\"".data rs then
          let ds := (l, String.mk (unescapeData (acc.cur_string ++ rs.dropLast))) :: acc.data_strings
          { acc with data_strings := ds, cur_label := none, cur_string := [] }
        else
          { acc with cur_string := acc.cur_string ++ origLine ++ ['\n'] }
      | none => acc
  else if acc.in_text then
    if line.contains ':' then
      match parseLabel line with
      | some label =>
        let acc := { acc with labels := (label, acc.instructions.length) :: acc.labels }
        let rest := pyStrip (afterCh ':' line)
        if !rest.isEmpty && !listStarts "#".data rest then
          { acc with instructions := acc.instructions ++ [String.mk rest] }
        else acc
      | none => acc
    else if !line.isEmpty && !listStarts ".".data line then
      { acc with instructions := acc.instructions ++ [String.mk line] }
    else acc
  else acc

/-- Python `MIPSInterpreter.load_program` on a fresh interpreter: split into
lines, run the section-aware line loop, then point `$sp` at the fixed high
address `0x7ffffffc`. -/
def load_program (asm : String) : MState :=
  let lines := splitCh '\n' asm.data
  let acc := lines.foldl loadLine
    { in_data := false, in_text := false, cur_label := none, cur_string := [],
      data_strings := [], labels := [], instructions := [] }
  set_reg "$sp" 0x7ffffffc
    { msInit with data_strings := acc.data_strings, labels := acc.labels,
                  instructions := acc.instructions }

/-! ## Run loop (`MIPSInterpreter.run`) -/

/-- The fixed instruction budget of `MIPSInterpreter.run`. -/
def maxIter : Nat := 100000

/-- The fetch/decode/execute loop of `run`. The returned `Nat` is the
Python `iterations` counter (number of completed `execute` calls). The
fuel only bounds recursion depth: `runFuel` below strictly dominates the
loop measure `(maxIter - iterations) * (len + 1) + (len - pc)`, which
drops on every pass, so the fuel case is never the one that stops a run. -/
def runLoop : Nat → MState → Nat → Option String × MState × Nat
  | 0, st, iterations => (none, st, iterations)
  | fuel + 1, st, iterations =>
    if st.running = true ∧ iterations < maxIter then
      if st.instructions.length ≤ st.pc then (none, st, iterations)
      else
        let instL := pyStrip ((st.instructions.getD st.pc "").data)
        if instL.isEmpty || listStarts "#".data instL then
          runLoop fuel { st with pc := st.pc + 1 } iterations
        else
          match execute (String.mk instL) st with
          | (some e, st') => (some e, st', iterations)
          | (none, st') => runLoop fuel st' (iterations + 1)
    else (none, st, iterations)

/-- Fuel that strictly dominates the run-loop measure. -/
def runFuel (st : MState) : Nat :=
  maxIter * (st.instructions.length + 1) + st.instructions.length + 1

/-- Python `MIPSInterpreter.run`: look up `main` (raising when absent) and
iterate the loop from a zero iteration count. -/
def run (st : MState) : Option String × MState × Nat :=
  match st.labels.lookup "main" with
  | none => (some "No main function found", st, 0)
  | some idx =>
    let st := { st with pc := idx }
    runLoop (runFuel st) st 0

/-- Execute a straight-line instruction sequence through `execute`,
stopping at the first raise (used to state claims about the generated
comparison sequences, each of which is branch-free). -/
def execList : List String → MState → Option String × MState
  | [], st => (none, st)
  | i :: rest, st =>
    match execute i st with
    | (some e, st') => (some e, st')
    | (none, st') => execList rest st'

/-- The whole compiler pipeline of `Toycc.main`: tokenize, parse, generate.
The generation fuel is derived from the source length, which dominates the
nesting depth of any tree the parser can produce from that source. -/
def compile (src : String) : Except String String := do
  let p ← parse (tokenize src)
  let (asm, _) ← generate (10 * src.length + 100) p
  pure asm

/-! ## Proof helpers -/

/-- Dict read-after-write on the association-list memory. -/
theorem memGet_memSet (a : Int) (v : Nat) (m : Mem) (x : Int) :
    memGet (memSet a v m) x = if x = a then v else memGet m x := by
  simp only [memGet, memSet, List.lookup]
  by_cases h : x = a
  · simp [h]
  · have hb : (x == a) = false := by simpa [beq_iff_eq] using h
    simp [hb, h]

/-- Writing a named register rewrites exactly its slot (nonzero index). -/
theorem set_reg_regs (name : String) (i : Nat) (h : List.lookup name reg_names = some i)
    (hi : i ≠ 0) (v : Int) (st : MState) :
    (set_reg name v st).regs =
      fun j => if j = i then ((v % 4294967296).toNat) else st.regs j := by
  unfold set_reg
  rw [h]
  simp [hi]

/-- The signed reinterpretation computed inside the `slt` branch. -/
def sgn (v : Nat) : Int :=
  if v &&& 0x80000000 ≠ 0 then (v : Int) - 0x100000000 else (v : Int)

/-- Two's-complement reading of a 32-bit register value (specification side:
the balanced remainder in `[-2^31, 2^31)`). -/
def signed32 (v : Nat) : Int := (v : Int).bmod 4294967296

/-- The simulator's sign fix agrees with the two's-complement reading on
in-range register values. -/
theorem sgn_eq_signed32 (v : Nat) (hv : v < 4294967296) : sgn v = signed32 v := by
  have h1 : v &&& 0x80000000 = (v.testBit 31).toNat * 2147483648 := by
    have h := Nat.and_two_pow v 31
    norm_num at h
    exact h
  have h2 : v.testBit 31 = decide (v / 2147483648 % 2 = 1) := by
    have h := @Nat.testBit_to_div_mod 31 v
    norm_num at h
    exact h
  unfold sgn signed32 Int.bmod
  cases hb : v.testBit 31 <;> rw [hb] at h1 h2 <;> simp at h1 h2 <;> rw [h1] <;>
    norm_num <;> split_ifs <;> omega

/-! ## Claim C5 -/

/-- C5: register slot 0 (`$zero`) is wired to zero. Every register access of
every instruction branch goes through `get_reg`/`set_reg`; a `set_reg` whose
name resolves to slot 0 returns the state unchanged (so all 32 slots are
untouched), and a `get_reg` of that name yields 0, for every state and every
written value. -/
theorem claim_C5_zero_register (st : MState) (v : Int) :
    set_reg "$zero" v st = st ∧ get_reg "$zero" st = .ok 0 :=
  ⟨rfl, rfl⟩

/-! ## Claim C4 -/

/-- C4: a `div` raises the fatal division-by-zero error exactly when the
second operand register holds 0; the error propagates with the state
unchanged (registers, memory, lo/hi, pc all untouched, and `execute`
returns the input state on any raise); a nonzero divisor continues
normally with `lo` the quotient and `hi` the remainder and only `pc`
advanced. -/
theorem claim_C4_div_by_zero (st : MState) (r1 r2 : String) (v1 v2 : Nat)
    (h1 : get_reg r1 st = .ok v1) (h2 : get_reg r2 st = .ok v2) :
    (v2 = 0 → exec_inst "div" [r1, r2] st = .error "Division by zero")
    ∧ (v2 ≠ 0 → exec_inst "div" [r1, r2] st =
        .ok { st with lo := v1 / v2, hi := v1 % v2, pc := st.pc + 1 })
    ∧ (∀ inst, (execute inst st).1.isSome → (execute inst st).2 = st) := by
  have e : exec_inst "div" [r1, r2] st = (do
      let w1 ← get_reg r1 st
      let w2 ← get_reg r2 st
      if w2 = 0 then Except.error "Division by zero"
      else Except.ok (bump { st with lo := w1 / w2, hi := w1 % w2 })) := rfl
  refine ⟨?_, ?_, ?_⟩
  · intro h0
    subst h0
    rw [e, h1, h2]
    rfl
  · intro h0
    rw [e, h1, h2]
    show (if v2 = 0 then (Except.error "Division by zero" : Except String MState)
          else Except.ok (bump { st with lo := v1 / v2, hi := v1 % v2 })) = _
    rw [if_neg h0]
    rfl
  · intro inst hs
    rcases hp : parseInst inst with _ | ⟨op, ops⟩
    · have hx : execute inst st = (none, bump st) := by
        unfold execute
        rw [hp]
      rw [hx] at hs
      simp at hs
    · rcases he : exec_inst op ops st with err | st'
      · have hx : execute inst st = (some err, st) := by
          unfold execute
          rw [hp]
          show (match exec_inst op ops st with
                | Except.ok st' => ((none : Option String), st')
                | Except.error e2 => (some e2, st)) = (some err, st)
          rw [he]
        rw [hx]
      · have hx : execute inst st = (none, st') := by
          unfold execute
          rw [hp]
          show (match exec_inst op ops st with
                | Except.ok st' => ((none : Option String), st')
                | Except.error e2 => (some e2, st)) = (none, st')
          rw [he]
        rw [hx] at hs
        simp at hs

/-- C4 witness: a concrete zero divisor raises with the state unchanged and
a concrete nonzero divisor divides. -/
theorem claim_C4_witness :
    exec_inst "div" ["$t0", "$t1"] msInit = .error "Division by zero"
    ∧ exec_inst "div" ["$t0", "$t1"]
        { msInit with regs := fun j => if j = 8 then 7 else if j = 9 then 2 else 0 } =
      .ok { msInit with
              regs := fun j => if j = 8 then 7 else if j = 9 then 2 else 0,
              lo := 3, hi := 1, pc := 1 } := by
  constructor
  · exact (claim_C4_div_by_zero msInit "$t0" "$t1" 0 0 rfl rfl).1 rfl
  · exact (claim_C4_div_by_zero
      { msInit with regs := fun j => if j = 8 then 7 else if j = 9 then 2 else 0 }
      "$t0" "$t1" 7 2 rfl rfl).2.1 (by decide)

/-! ## Claim C7 -/

/-- C7: the run loop terminates for every loaded program: the iteration
counter (completed `execute` calls) never exceeds the fixed budget of
100000; a `jr $ra` that finds the return-address register equal to 0 clears
`running`, and a cleared `running` flag stops the loop at once; reaching the
budget stops the loop with no error. -/
theorem claim_C7_run_terminates :
    (∀ fuel st iterations, iterations ≤ maxIter →
      (runLoop fuel st iterations).2.2 ≤ maxIter)
    ∧ (∀ st, (run st).2.2 ≤ maxIter)
    ∧ (∀ fuel st, runLoop fuel st maxIter = (none, st, maxIter))
    ∧ (∀ fuel st iterations, st.running = false →
        runLoop fuel st iterations = (none, st, iterations))
    ∧ (∀ st, get_reg "$ra" st = .ok 0 →
        exec_inst "jr" ["$ra"] st = .ok { st with running := false }) := by
  have bound : ∀ fuel st iterations, iterations ≤ maxIter →
      (runLoop fuel st iterations).2.2 ≤ maxIter := by
    intro fuel
    induction fuel with
    | zero => intro st it h; simpa [runLoop] using h
    | succ n ih =>
      intro st it h
      unfold runLoop
      split
      · split
        · simpa using h
        · dsimp only
          split
          · exact ih _ _ h
          · split
            · simpa using h
            · rename_i hcond _ _ _ hexec
              exact ih _ _ (by omega)
      · simpa using h
  refine ⟨bound, ?_, ?_, ?_, ?_⟩
  · intro st
    rcases hm : st.labels.lookup "main" with _ | idx
    · have hx : run st = (some "No main function found", st, 0) := by
        unfold run
        rw [hm]
      rw [hx]
      exact Nat.zero_le _
    · have hx : run st =
          runLoop (runFuel { st with pc := idx }) { st with pc := idx } 0 := by
        unfold run
        rw [hm]
      rw [hx]
      exact bound _ _ _ (Nat.zero_le _)
  · intro fuel st
    cases fuel with
    | zero => rfl
    | succ n =>
      unfold runLoop
      rw [if_neg (fun h => (lt_irrefl maxIter) h.2)]
  · intro fuel st it hr
    cases fuel with
    | zero => rfl
    | succ n =>
      unfold runLoop
      rw [hr]
      simp
  · intro st h
    have e : exec_inst "jr" ["$ra"] st = (do
        let target ← get_reg "$ra" st
        if target = 0 then Except.ok { st with running := false }
        else Except.ok { st with pc := target }) := rfl
    rw [e, h]
    rfl

/-- C7 witness: concrete instances discharging the hypotheses. -/
theorem claim_C7_witness :
    (runLoop 5 msInit 0).2.2 ≤ maxIter
    ∧ exec_inst "jr" ["$ra"] msInit = .ok { msInit with running := false } :=
  ⟨claim_C7_run_terminates.1 5 msInit 0 (by decide),
   claim_C7_run_terminates.2.2.2.2 msInit rfl⟩

/-! ## Claim C8 -/

/-- Recomposing the four little-endian bytes of a word by the read loop's
shift-or chain recovers the word masked to 32 bits. -/
theorem bytes_recompose (w : Nat) :
    (((0 ||| ((w >>> (0 * 8)) &&& 0xFF) <<< (0 * 8)) |||
      (((w >>> (1 * 8)) &&& 0xFF) <<< (1 * 8))) |||
      (((w >>> (2 * 8)) &&& 0xFF) <<< (2 * 8))) |||
      (((w >>> (3 * 8)) &&& 0xFF) <<< (3 * 8)) = w &&& 0xFFFFFFFF := by
  apply Nat.eq_of_testBit_eq
  intro i
  have h255 : (0xFF : Nat) = 2 ^ 8 - 1 := by norm_num
  have hful : (0xFFFFFFFF : Nat) = 2 ^ 32 - 1 := by norm_num
  rw [h255, hful]
  simp only [Nat.testBit_lor, Nat.testBit_shiftLeft, Nat.testBit_land,
    Nat.testBit_shiftRight, Nat.testBit_two_pow_sub_one, Nat.zero_testBit,
    Bool.false_or]
  rcases Nat.lt_or_ge i 8 with h1 | h1
  · simp [h1, (show ¬ (8 ≤ i) from by omega), (show ¬ (16 ≤ i) from by omega),
      (show ¬ (24 ≤ i) from by omega), (show i < 32 from by omega)]
  · rcases Nat.lt_or_ge i 16 with h2 | h2
    · simp [h1, (show 8 + (i - 8) = i from by omega), (show ¬ (i < 8) from by omega),
        (show ¬ (16 ≤ i) from by omega), (show ¬ (24 ≤ i) from by omega),
        (show i - 8 < 8 from by omega), (show i < 32 from by omega)]
    · rcases Nat.lt_or_ge i 24 with h3 | h3
      · simp [h2, (show 16 + (i - 16) = i from by omega), (show ¬ (i < 8) from by omega),
          (show 8 ≤ i from by omega), (show ¬ (i - 8 < 8) from by omega),
          (show ¬ (24 ≤ i) from by omega), (show i - 16 < 8 from by omega),
          (show i < 32 from by omega)]
      · rcases Nat.lt_or_ge i 32 with h4 | h4
        · simp [h3, (show 24 + (i - 24) = i from by omega), (show ¬ (i < 8) from by omega),
            (show 8 ≤ i from by omega), (show 16 ≤ i from by omega),
            (show ¬ (i - 8 < 8) from by omega), (show ¬ (i - 16 < 8) from by omega),
            (show i - 24 < 8 from by omega), (show i < 32 from by omega)]
        · simp [(show ¬ (i < 8) from by omega), (show ¬ (i - 8 < 8) from by omega),
            (show ¬ (i - 16 < 8) from by omega), (show ¬ (i - 24 < 8) from by omega),
            (show ¬ (i < 32) from by omega)]

/-- C8: memory words are little-endian byte-composed. After `write_mem a w`
the byte at `a + i` equals `(w >>> (8*i)) &&& 0xFF` for `i` in 0..3, every
other address is unaffected, a subsequent `read_mem a` returns
`w &&& 0xFFFFFFFF`, and reading four unmapped bytes yields 0. -/
theorem claim_C8_little_endian (a : Int) (w : Nat) (m : Mem) :
    (memGet (write_mem a w m) a = (w >>> (8 * 0)) &&& 0xFF
      ∧ memGet (write_mem a w m) (a + 1) = (w >>> (8 * 1)) &&& 0xFF
      ∧ memGet (write_mem a w m) (a + 2) = (w >>> (8 * 2)) &&& 0xFF
      ∧ memGet (write_mem a w m) (a + 3) = (w >>> (8 * 3)) &&& 0xFF)
    ∧ (∀ x : Int, x ≠ a → x ≠ a + 1 → x ≠ a + 2 → x ≠ a + 3 →
        memGet (write_mem a w m) x = memGet m x)
    ∧ read_mem a (write_mem a w m) = w &&& 0xFFFFFFFF
    ∧ (∀ b : Int, read_mem b ([] : Mem) = 0) := by
  have hw : write_mem a w m =
      memSet (a + 3) ((w >>> (3 * 8)) &&& 0xFF)
        (memSet (a + 2) ((w >>> (2 * 8)) &&& 0xFF)
          (memSet (a + 1) ((w >>> (1 * 8)) &&& 0xFF)
            (memSet a ((w >>> (0 * 8)) &&& 0xFF) m))) := rfl
  have hb0 : memGet (write_mem a w m) a = (w >>> (0 * 8)) &&& 0xFF := by
    rw [hw]
    simp [memGet_memSet, (show a ≠ a + 3 from by omega), (show a ≠ a + 2 from by omega),
      (show a ≠ a + 1 from by omega)]
  have hb1 : memGet (write_mem a w m) (a + 1) = (w >>> (1 * 8)) &&& 0xFF := by
    rw [hw]
    simp [memGet_memSet, (show a + 1 ≠ a + 3 from by omega),
      (show a + 1 ≠ a + 2 from by omega), (show a + 1 ≠ a from by omega)]
  have hb2 : memGet (write_mem a w m) (a + 2) = (w >>> (2 * 8)) &&& 0xFF := by
    rw [hw]
    simp [memGet_memSet, (show a + 2 ≠ a + 3 from by omega),
      (show a + 2 ≠ a + 1 from by omega), (show a + 2 ≠ a from by omega)]
  have hb3 : memGet (write_mem a w m) (a + 3) = (w >>> (3 * 8)) &&& 0xFF := by
    rw [hw]
    simp [memGet_memSet]
  refine ⟨⟨?_, ?_, ?_, ?_⟩, ?_, ?_, ?_⟩
  · simpa using hb0
  · simpa using hb1
  · simpa using hb2
  · simpa using hb3
  · intro x hx0 hx1 hx2 hx3
    rw [hw]
    simp [memGet_memSet, hx0, hx1, hx2, hx3]
  · show (((0 ||| (memGet (write_mem a w m) a <<< (0 * 8))) |||
        (memGet (write_mem a w m) (a + 1) <<< (1 * 8))) |||
        (memGet (write_mem a w m) (a + 2) <<< (2 * 8))) |||
        (memGet (write_mem a w m) (a + 3) <<< (3 * 8)) = w &&& 0xFFFFFFFF
    rw [hb0, hb1, hb2, hb3]
    exact bytes_recompose w
  · intro b
    show (((0 ||| (memGet ([] : Mem) b <<< (0 * 8))) |||
        (memGet ([] : Mem) (b + 1) <<< (1 * 8))) |||
        (memGet ([] : Mem) (b + 2) <<< (2 * 8))) |||
        (memGet ([] : Mem) (b + 3) <<< (3 * 8)) = 0
    have hz : ∀ x : Int, memGet ([] : Mem) x = 0 := fun _ => rfl
    rw [hz, hz, hz, hz]
    rfl

/-- C8 witness: the frame property at a concrete input. -/
theorem claim_C8_witness :
    memGet (write_mem 0 0x11223344 ([] : Mem)) 9 = memGet ([] : Mem) 9 :=
  (claim_C8_little_endian 0 0x11223344 ([] : Mem)).2.1 9
    (by decide) (by decide) (by decide) (by decide)

/-! ## Claim C10 -/

/-- Addresses outside the written range are untouched by `storeString`. -/
theorem storeString_frame (cs : List Char) (a : Int) (m : Mem) (x : Int)
    (hx : x < a ∨ a + cs.length < x) : memGet (storeString a cs m) x = memGet m x := by
  induction cs generalizing a m with
  | nil =>
    simp only [storeString]
    rw [memGet_memSet, if_neg (by simp at hx; omega)]
  | cons c cs ih =>
    simp only [storeString]
    rw [ih (a + 1) _ (by simp at hx ⊢; omega)]
    rw [memGet_memSet, if_neg (by simp at hx; omega)]

/-- The k-th written byte is the code of the k-th character. -/
theorem storeString_get (cs : List Char) (a : Int) (m : Mem) (k : Nat)
    (hk : k < cs.length) :
    memGet (storeString a cs m) (a + k) = (cs.getD k ' ').toNat := by
  induction cs generalizing a m k with
  | nil => simp at hk
  | cons c cs ih =>
    cases k with
    | zero =>
      simp only [storeString]
      rw [show a + ((0 : Nat) : Int) = a from by push_cast; ring]
      rw [storeString_frame cs (a + 1) _ a (by left; omega)]
      rw [memGet_memSet, if_pos rfl]
      rfl
    | succ k' =>
      simp only [storeString]
      rw [show a + ((k' + 1 : Nat) : Int) = (a + 1) + (k' : Int) from by push_cast; ring]
      rw [ih (a + 1) _ k' (by simpa using Nat.lt_of_succ_lt_succ hk)]
      rfl

/-- The byte just past the string content is the 0 terminator. -/
theorem storeString_terminator (cs : List Char) (a : Int) (m : Mem) :
    memGet (storeString a cs m) (a + cs.length) = 0 := by
  induction cs generalizing a m with
  | nil =>
    simp only [storeString, List.length_nil]
    rw [show a + ((0 : Nat) : Int) = a from by push_cast; ring]
    rw [memGet_memSet, if_pos rfl]
  | cons c cs ih =>
    simp only [storeString, List.length_cons]
    rw [show a + ((cs.length + 1 : Nat) : Int) = (a + 1) + (cs.length : Int) from by
      push_cast; ring]
    exact ih (a + 1) _

/-- C10: `la rd, L` for a data-section label `L` with content `s` sets `rd`
to `0x10000000 + length of the label name`, materializes the character
codes of `s` at consecutive bytes from that address followed by a 0
terminator; any two labels of equal name length give the same address (so a
later `la` overwrites the earlier string's bytes). -/
theorem claim_C10_la_materialization (st : MState) (rd L s : String) (i : Nat)
    (hL : st.data_strings.lookup L = some s)
    (hrd : reg_names.lookup rd = some i) (hi : i ≠ 0)
    (hsz : (L.length : Int) + 0x10000000 < 4294967296) :
    ∃ st', exec_inst "la" [rd, L] st = .ok st'
      ∧ st'.regs i = 0x10000000 + L.length
      ∧ (∀ k : Nat, k < s.length →
          memGet st'.memory (laAddr L + k) = (s.data.getD k ' ').toNat)
      ∧ memGet st'.memory (laAddr L + s.length) = 0
      ∧ (∀ L' : String, L'.length = L.length → laAddr L' = laAddr L) := by
  have e : exec_inst "la" [rd, L] st = (match st.data_strings.lookup L with
      | some s' =>
        let st1 := set_reg rd (laAddr L) st
        Except.ok (bump { st1 with memory := storeString (laAddr L) s'.data st1.memory })
      | none => Except.error ("Unknown label: " ++ L)) := rfl
  rw [hL] at e
  have hmem : (set_reg rd (laAddr L) st).memory = st.memory := by
    unfold set_reg
    rw [hrd]
    simp [hi]
  refine ⟨_, e, ?_, ?_, ?_, ?_⟩
  · show (set_reg rd (laAddr L) st).regs i = 0x10000000 + L.length
    have hr := congrFun (set_reg_regs rd i hrd hi (laAddr L) st) i
    simp at hr
    rw [hr]
    unfold laAddr
    omega
  · intro k hk
    show memGet (storeString (laAddr L) s.data (set_reg rd (laAddr L) st).memory)
      (laAddr L + k) = _
    rw [hmem]
    exact storeString_get s.data (laAddr L) st.memory k hk
  · show memGet (storeString (laAddr L) s.data (set_reg rd (laAddr L) st).memory)
      (laAddr L + s.length) = 0
    rw [hmem]
    exact storeString_terminator s.data (laAddr L) st.memory
  · intro L' hlen
    unfold laAddr
    rw [hlen]

/-- C10 witness: a concrete label and content. -/
theorem claim_C10_witness :
    ∃ st', exec_inst "la" ["$t0", "msg"]
        { msInit with data_strings := [("msg", "AB")] } = .ok st'
      ∧ st'.regs 8 = 0x10000003
      ∧ memGet st'.memory (laAddr "msg") = 65
      ∧ memGet st'.memory (laAddr "msg" + 2) = 0 := by
  obtain ⟨st', h1, h2, h3, h4, -⟩ := claim_C10_la_materialization
    { msInit with data_strings := [("msg", "AB")] } "$t0" "msg" "AB" 8 rfl rfl
    (by decide) (by decide)
  refine ⟨st', h1, ?_, ?_, ?_⟩
  · rw [h2]
    decide
  · have h := h3 0 (by decide)
    rw [show laAddr "msg" + ((0 : Nat) : Int) = laAddr "msg" from by push_cast; ring] at h
    rw [h]
    rfl
  · have h := h4
    rw [show laAddr "msg" + (("AB".length : Nat) : Int) = laAddr "msg" + 2 from by decide] at h
    exact h

/-! ## Claim C3 -/

/-- Source text of the first end-to-end scenario. -/
def c3src : String := "int main(){ return 42; }"

/-- The end-to-end pipeline on that source: compile, load, run. -/
def c3run : Option String × MState × Nat :=
  match compile c3src with
  | .ok asm => run (load_program asm)
  | .error e => (some e, msInit, 0)

/-- C3: `int main(){ return 42; }` compiles, and simulating the produced
assembly from the initial state terminates normally (the `jr $ra` to a zero
return address clears `running`, no exception is raised) with the
return-value register `$v0` (slot 2) holding 42 and no console output. -/
theorem claim_C3_end_to_end :
    (compile c3src).toOption.isSome = true
    ∧ c3run.1 = none
    ∧ c3run.2.1.regs 2 = 42
    ∧ c3run.2.1.output = ""
    ∧ c3run.2.1.running = false := by decide

/-! ## Claim C2 -/

/-- A function named `foo` whose body is a single `return 1;`. -/
def fooFunc : Func := { return_type := "int", name := "foo", body := [.ret (some (.number 1))] }

/-- The assembly lines `gen_function` emits for `fooFunc`. -/
def fooExpected : List String :=
  ["foo:", "    addi $sp, $sp, -8", "    sw $ra, 4($sp)", "    sw $fp, 0($sp)",
   "    move $fp, $sp", "    li $t0, 1", "    move $v0, $t0", "    j main_exit",
   "foo_exit:", "    move $sp, $fp", "    lw $fp, 0($sp)", "    lw $ra, 4($sp)",
   "    addi $sp, $sp, 8", "    jr $ra", ""]

/-- C2 counterexample: in the function named `foo`, the `return` statement
does NOT jump to the enclosing function's epilogue label `foo_exit`; the
emitted jump targets the fixed label `main_exit` (while the epilogue label
emitted for `foo` is `foo_exit`), refuting the claim for any enclosing
function not named `main`. -/
theorem claim_C2_counterexample :
    (gen_function 10 fooFunc cgInit).toOption.map CGState.output = some fooExpected
    ∧ "    j main_exit" ∈ fooExpected
    ∧ "foo_exit:" ∈ fooExpected
    ∧ "    j foo_exit" ∉ fooExpected := by decide

/-- C2 amended: every generated `Return` ends its emitted code with a jump
to the fixed label `main_exit` (not to the enclosing function's epilogue
label), while `gen_function` emits the function's own epilogue under
`name_exit` exactly once, at the end of the function's output. -/
theorem claim_C2_amended (fuel : Nat) (v : Option Expr) (st st' : CGState)
    (h : gen_stmt fuel (.ret v) st = .ok st') :
    st'.output.getLast? = some "    j main_exit"
    ∧ (∀ f stf stf', gen_function fuel f stf = .ok stf' →
        ∃ pre, stf'.output = pre ++
          [f.name ++ "_exit:", "    move $sp, $fp", "    lw $fp, 0($sp)",
           "    lw $ra, 4($sp)", "    addi $sp, $sp, 8", "    jr $ra", ""]) := by
  constructor
  · cases fuel with
    | zero => exact absurd h (by simp [gen_stmt])
    | succ n =>
      rcases v with _ | e
      · have e2 : gen_stmt (n + 1) (Stmt.ret none) st =
            Except.ok (emit "    j main_exit" st) := rfl
        rw [e2] at h
        rw [← Except.ok.inj h]
        simp [emit]
      · have e2 : gen_stmt (n + 1) (Stmt.ret (some e)) st =
            (gen_expr n e st).bind (fun st1 =>
              Except.ok (emit "    j main_exit" (emit "    move $v0, $t0" st1))) := rfl
        rw [e2] at h
        rcases hg : gen_expr n e st with err | st1 <;> rw [hg] at h
        · simp [Except.bind] at h
        · simp only [Except.bind] at h
          rw [← Except.ok.inj h]
          simp [emit]
  · intro f stf stf' hf
    have e2 : gen_function fuel f stf =
        (gen_stmts fuel f.body
          { emitAll [f.name ++ ":", "    addi $sp, $sp, -8", "    sw $ra, 4($sp)",
              "    sw $fp, 0($sp)", "    move $fp, $sp"] stf with
            vars := [], stack_offset := 0 }).bind
          (fun stB => Except.ok (emitAll [f.name ++ "_exit:", "    move $sp, $fp",
            "    lw $fp, 0($sp)", "    lw $ra, 4($sp)", "    addi $sp, $sp, 8",
            "    jr $ra", ""] stB)) := rfl
    rw [e2] at hf
    rcases hg : gen_stmts fuel f.body
        { emitAll [f.name ++ ":", "    addi $sp, $sp, -8", "    sw $ra, 4($sp)",
            "    sw $fp, 0($sp)", "    move $fp, $sp"] stf with
          vars := [], stack_offset := 0 } with err | stB <;> rw [hg] at hf
    · simp [Except.bind] at hf
    · simp only [Except.bind] at hf
      refine ⟨stB.output, ?_⟩
      rw [← Except.ok.inj hf]
      rfl

/-- C2 amended witness: the concrete `return 1;` inside `foo`. -/
theorem claim_C2_amended_witness :
    ∃ st', gen_stmt 10 (.ret (some (.number 1))) cgInit = .ok st'
      ∧ st'.output.getLast? = some "    j main_exit" := by
  refine ⟨(emit "    j main_exit" (emit "    move $v0, $t0"
    (emit "    li $t0, 1" cgInit))), rfl, ?_⟩
  exact (claim_C2_amended 10 (some (.number 1)) cgInit _ rfl).1

/-! ## Claim C9 -/

/-- C9 counterexample: on the unterminated string input `"abc` the lexer
completes without any error outcome (its result type has no error channel
at all, and every read is bounds-guarded) and yields an ordinary STRING
token, refuting the claim that the condition surfaces as a distinct error
category rather than an ordinary token. -/
theorem claim_C9_counterexample :
    tokenize "\"abc" = [{ type := "STRING", value := .str "abc", line := 1 }] := by decide

/-- C9 amended: an unterminated string literal (an opening quote whose
remaining input contains no closing quote) consumes the entire rest of the
input into a single ordinary STRING token; no error is surfaced and no
out-of-bounds read occurs (the Python scan position does step past the
buffer end, but every read is guarded). Stated for suffixes free of quote
and escape characters, where the token text is the suffix itself. -/
theorem claim_C9_amended (rest : List Char)
    (h : ∀ c ∈ rest, c ≠ '"' ∧ c ≠ '\\') :
    tokenize (String.mk ('"' :: rest)) =
      [{ type := "STRING", value := .str (String.mk rest), line := 1 }] := by
  have hscan : scanStr rest = (rest, []) := by
    induction rest with
    | nil => rfl
    | cons c cs ih =>
      have hc := h c (by simp)
      unfold scanStr
      rw [if_neg hc.1, if_neg hc.2]
      rw [ih (fun c' hc' => h c' (by simp [hc']))]
  have e : tokenize (String.mk ('"' :: rest)) =
      ({ type := "STRING", value := .str (String.mk (scanStr rest).1), line := 1 } : Token)
        :: lexGo (rest.length + 1) (scanStr rest).2 1 := rfl
  rw [e, hscan]
  have hnil : lexGo (rest.length + 1) [] 1 = [] := by
    cases rest <;> rfl
  rw [hnil]

/-- C9 amended witness: the concrete unterminated input. -/
theorem claim_C9_amended_witness :
    tokenize (String.mk ('"' :: "abc".data)) =
      [{ type := "STRING", value := .str (String.mk "abc".data), line := 1 }] :=
  claim_C9_amended "abc".data (by decide)

/-! ## Claim C1 -/

/-- Stepping an instruction list past a successfully executed head. -/
theorem execList_cons_none (i : String) (rest : List String) (st st1 : MState)
    (h : execute i st = (none, st1)) :
    execList (i :: rest) st = execList rest st1 := by
  conv_lhs => rw [execList]
  rw [h]

/-- Simulator semantics of the `sub $t0, $t0, $t1` line. -/
theorem exec_sub_line (st : MState) : execute "    sub $t0, $t0, $t1" st =
    (none, bump (set_reg "$t0" ((st.regs 8 : Int) - (st.regs 9 : Int)) st)) := rfl

/-- Simulator semantics of the `slt $t2, $t0, $zero` line. -/
theorem exec_slt_t2_line (st : MState) : execute "    slt $t2, $t0, $zero" st =
    (none, bump (set_reg "$t2" (if sgn (st.regs 8) < sgn 0 then 1 else 0) st)) := rfl

/-- Simulator semantics of the `slt $t3, $zero, $t0` line. -/
theorem exec_slt_t3_line (st : MState) : execute "    slt $t3, $zero, $t0" st =
    (none, bump (set_reg "$t3" (if sgn 0 < sgn (st.regs 8) then 1 else 0) st)) := rfl

/-- Simulator semantics of the `or $t0, $t2, $t3` line. -/
theorem exec_or_line (st : MState) : execute "    or $t0, $t2, $t3" st =
    (none, bump (set_reg "$t0" (((st.regs 10 ||| st.regs 11 : Nat)) : Int) st)) := rfl

/-- Simulator semantics of the `xori $t0, $t0, 1` line. -/
theorem exec_xori_line (st : MState) : execute "    xori $t0, $t0, 1" st =
    (none, bump (set_reg "$t0" (Int.xor (st.regs 8 : Int) 1) st)) := rfl

/-- Simulator semantics of the `sltu $t0, $zero, $t0` line. -/
theorem exec_sltu_line (st : MState) : execute "    sltu $t0, $zero, $t0" st =
    (none, bump (set_reg "$t0" (if 0 < st.regs 8 then 1 else 0) st)) := rfl

/-- Simulator semantics of the `andi $t0, $t0, 1` line. -/
theorem exec_andi_line (st : MState) : execute "    andi $t0, $t0, 1" st =
    (none, bump (set_reg "$t0" (Int.land (st.regs 8 : Int) 1) st)) := rfl

/-- Simulator semantics of the `slt $t0, $t0, $t1` line. -/
theorem exec_slt_lt_line (st : MState) : execute "    slt $t0, $t0, $t1" st =
    (none, bump (set_reg "$t0" (if sgn (st.regs 8) < sgn (st.regs 9) then 1 else 0) st)) := rfl

/-- Simulator semantics of the `slt $t0, $t1, $t0` line. -/
theorem exec_slt_gt_line (st : MState) : execute "    slt $t0, $t1, $t0" st =
    (none, bump (set_reg "$t0" (if sgn (st.regs 9) < sgn (st.regs 8) then 1 else 0) st)) := rfl

/-- Register file after a masked write to `$t0` (slot 8). -/
theorem regs_bump_set_t0 (v : Int) (st : MState) (j : Nat) :
    (bump (set_reg "$t0" v st)).regs j =
      if j = 8 then ((v % 4294967296).toNat) else st.regs j := by
  show (set_reg "$t0" v st).regs j = _
  rw [set_reg_regs "$t0" 8 rfl (by decide)]

/-- Register file after a masked write to `$t2` (slot 10). -/
theorem regs_bump_set_t2 (v : Int) (st : MState) (j : Nat) :
    (bump (set_reg "$t2" v st)).regs j =
      if j = 10 then ((v % 4294967296).toNat) else st.regs j := by
  show (set_reg "$t2" v st).regs j = _
  rw [set_reg_regs "$t2" 10 rfl (by decide)]

/-- Register file after a masked write to `$t3` (slot 11). -/
theorem regs_bump_set_t3 (v : Int) (st : MState) (j : Nat) :
    (bump (set_reg "$t3" v st)).regs j =
      if j = 11 then ((v % 4294967296).toNat) else st.regs j := by
  show (set_reg "$t3" v st).regs j = _
  rw [set_reg_regs "$t3" 11 rfl (by decide)]

/-- Masking a 0/1 value is the identity. -/
theorem mask01 (P : Prop) [Decidable P] :
    (((if P then (1 : Int) else 0) % 4294967296).toNat) = if P then 1 else 0 := by
  split <;> rfl

/-- The balanced signed value is 0 exactly on the zero register value. -/
theorem signed32_pos_or_neg (d : Nat) (hd : d < 4294967296) (hd0 : d ≠ 0) :
    sgn d < 0 ∨ 0 < sgn d := by
  rw [sgn_eq_signed32 d hd]
  unfold signed32 Int.bmod
  dsimp only
  split <;> push_cast <;> omega

/-- C1: executed by the simulator on operand registers `$t0 = a`,
`$t1 = b` (32-bit values), the generated `==` sequence leaves 1 in `$t0`
iff `a = b`, the `!=` sequence leaves 1 iff `a ≠ b`, the `<` sequence
leaves 1 iff signed `a <` signed `b`, and the `<=`/`>=` sequences leave
the negation of the corresponding strict signed inequality; no sequence
raises. -/
theorem claim_C1_relational_lowering (st : MState) (a b : Nat)
    (ha : a < 4294967296) (hb : b < 4294967296)
    (h8 : st.regs 8 = a) (h9 : st.regs 9 = b) :
    ((execList (binopCode "==") st).1 = none
      ∧ (execList (binopCode "==") st).2.regs 8 = (if a = b then 1 else 0))
    ∧ ((execList (binopCode "!=") st).1 = none
      ∧ (execList (binopCode "!=") st).2.regs 8 = (if a = b then 0 else 1))
    ∧ ((execList (binopCode "<") st).1 = none
      ∧ (execList (binopCode "<") st).2.regs 8 =
          (if signed32 a < signed32 b then 1 else 0))
    ∧ ((execList (binopCode "<=") st).1 = none
      ∧ (execList (binopCode "<=") st).2.regs 8 =
          (if signed32 b < signed32 a then 0 else 1))
    ∧ ((execList (binopCode ">=") st).1 = none
      ∧ (execList (binopCode ">=") st).2.regs 8 =
          (if signed32 a < signed32 b then 0 else 1)) := by
  refine ⟨⟨?_, ?_⟩, ⟨?_, ?_⟩, ⟨?_, ?_⟩, ⟨?_, ?_⟩, ⟨?_, ?_⟩⟩
  case refine_1 =>
    rw [show binopCode "==" = ["    sub $t0, $t0, $t1", "    slt $t2, $t0, $zero",
        "    slt $t3, $zero, $t0", "    or $t0, $t2, $t3", "    xori $t0, $t0, 1"] from rfl,
      execList_cons_none _ _ _ _ (exec_sub_line st),
      execList_cons_none _ _ _ _ (exec_slt_t2_line _),
      execList_cons_none _ _ _ _ (exec_slt_t3_line _),
      execList_cons_none _ _ _ _ (exec_or_line _),
      execList_cons_none _ _ _ _ (exec_xori_line _)]
    rfl
  case refine_3 =>
    rw [show binopCode "!=" = ["    sub $t0, $t0, $t1", "    sltu $t0, $zero, $t0",
        "    andi $t0, $t0, 1"] from rfl,
      execList_cons_none _ _ _ _ (exec_sub_line st),
      execList_cons_none _ _ _ _ (exec_sltu_line _),
      execList_cons_none _ _ _ _ (exec_andi_line _)]
    rfl
  case refine_5 =>
    rw [show binopCode "<" = ["    slt $t0, $t0, $t1"] from rfl,
      execList_cons_none _ _ _ _ (exec_slt_lt_line st)]
    rfl
  case refine_7 =>
    rw [show binopCode "<=" = ["    slt $t0, $t1, $t0", "    xori $t0, $t0, 1"] from rfl,
      execList_cons_none _ _ _ _ (exec_slt_gt_line st),
      execList_cons_none _ _ _ _ (exec_xori_line _)]
    rfl
  case refine_9 =>
    rw [show binopCode ">=" = ["    slt $t0, $t0, $t1", "    xori $t0, $t0, 1"] from rfl,
      execList_cons_none _ _ _ _ (exec_slt_lt_line st),
      execList_cons_none _ _ _ _ (exec_xori_line _)]
    rfl
  case refine_2 =>
    rw [show binopCode "==" = ["    sub $t0, $t0, $t1", "    slt $t2, $t0, $zero",
        "    slt $t3, $zero, $t0", "    or $t0, $t2, $t3", "    xori $t0, $t0, 1"] from rfl,
      execList_cons_none _ _ _ _ (exec_sub_line st),
      execList_cons_none _ _ _ _ (exec_slt_t2_line _),
      execList_cons_none _ _ _ _ (exec_slt_t3_line _),
      execList_cons_none _ _ _ _ (exec_or_line _),
      execList_cons_none _ _ _ _ (exec_xori_line _)]
    show (bump (set_reg "$t0" _ _)).regs 8 = _
    simp only [regs_bump_set_t0, regs_bump_set_t2, regs_bump_set_t3, mask01]
    norm_num
    rw [h8, h9]
    by_cases hab : a = b
    · have hd : (((a : Int) - b) % 4294967296).toNat = 0 := by omega
      rw [hd]
      simp [hab, sgn]
      decide
    · have hdlt : (((a : Int) - b) % 4294967296).toNat < 4294967296 := by omega
      have hd0 : (((a : Int) - b) % 4294967296).toNat ≠ 0 := by omega
      rcases signed32_pos_or_neg _ hdlt hd0 with hs | hs
      · rw [if_pos (by simpa [sgn] using hs), if_neg (by simp [sgn] at hs ⊢; omega)]
        simp [hab]
        decide
      · rw [if_neg (by simp [sgn] at hs ⊢; omega), if_pos (by simpa [sgn] using hs)]
        simp [hab]
        decide
  case refine_4 =>
    rw [show binopCode "!=" = ["    sub $t0, $t0, $t1", "    sltu $t0, $zero, $t0",
        "    andi $t0, $t0, 1"] from rfl,
      execList_cons_none _ _ _ _ (exec_sub_line st),
      execList_cons_none _ _ _ _ (exec_sltu_line _),
      execList_cons_none _ _ _ _ (exec_andi_line _)]
    show (bump (set_reg "$t0" _ _)).regs 8 = _
    simp only [regs_bump_set_t0, mask01]
    norm_num
    rw [h8, h9]
    by_cases hab : a = b
    · have hd : ((a : Int) - b) % 4294967296 = 0 := by omega
      rw [hd]
      simp [hab]
      decide
    · have hd0 : 0 < ((a : Int) - b) % 4294967296 := by omega
      rw [if_pos hd0]
      simp [hab]
      decide
  case refine_6 =>
    rw [show binopCode "<" = ["    slt $t0, $t0, $t1"] from rfl,
      execList_cons_none _ _ _ _ (exec_slt_lt_line st)]
    show (bump (set_reg "$t0" _ _)).regs 8 = _
    simp only [regs_bump_set_t0, mask01]
    norm_num
    rw [h8, h9, sgn_eq_signed32 a ha, sgn_eq_signed32 b hb]
  case refine_8 =>
    rw [show binopCode "<=" = ["    slt $t0, $t1, $t0", "    xori $t0, $t0, 1"] from rfl,
      execList_cons_none _ _ _ _ (exec_slt_gt_line st),
      execList_cons_none _ _ _ _ (exec_xori_line _)]
    show (bump (set_reg "$t0" _ _)).regs 8 = _
    simp only [regs_bump_set_t0, mask01]
    norm_num
    rw [h8, h9, sgn_eq_signed32 a ha, sgn_eq_signed32 b hb]
    by_cases hba : signed32 b < signed32 a <;> simp [hba] <;> decide
  case refine_10 =>
    rw [show binopCode ">=" = ["    slt $t0, $t0, $t1", "    xori $t0, $t0, 1"] from rfl,
      execList_cons_none _ _ _ _ (exec_slt_lt_line st),
      execList_cons_none _ _ _ _ (exec_xori_line _)]
    show (bump (set_reg "$t0" _ _)).regs 8 = _
    simp only [regs_bump_set_t0, mask01]
    norm_num
    rw [h8, h9, sgn_eq_signed32 a ha, sgn_eq_signed32 b hb]
    by_cases hab : signed32 a < signed32 b <;> simp [hab] <;> decide

/-- A state with given operand-register contents. -/
def mkRegState (x y : Nat) : MState :=
  { msInit with regs := fun j => if j = 8 then x else if j = 9 then y else 0 }

/-- C1 witness: the boundary instances named by the claim: `a = 5, b = 5`
gives `== ↦ 1` and `!= ↦ 0`; `a = -1` (i.e. `0xFFFFFFFF`), `b = 1` gives
`< ↦ 1` and `>= ↦ 0`. -/
theorem claim_C1_witness :
    (execList (binopCode "==") (mkRegState 5 5)).2.regs 8 = 1
    ∧ (execList (binopCode "!=") (mkRegState 5 5)).2.regs 8 = 0
    ∧ (execList (binopCode "<") (mkRegState 4294967295 1)).2.regs 8 = 1
    ∧ (execList (binopCode ">=") (mkRegState 4294967295 1)).2.regs 8 = 0 := by
  have h1 := claim_C1_relational_lowering (mkRegState 5 5) 5 5
    (by decide) (by decide) rfl rfl
  have h2 := claim_C1_relational_lowering (mkRegState 4294967295 1) 4294967295 1
    (by decide) (by decide) rfl rfl
  refine ⟨?_, ?_, ?_, ?_⟩
  · rw [h1.1.2]
    decide
  · rw [h1.2.1.2]
    decide
  · rw [h2.2.2.1.2]
    decide
  · rw [h2.2.2.2.2.2]
    decide

/-! ## Claim C6: decimal-representation decoding -/

/-- Numeric value of a decimal digit character. -/
def digitVal (c : Char) : Nat := c.toNat - 48

/-- Value of a decimal digit string (most significant first). -/
def digitsVal (l : List Char) : Nat := l.foldl (fun a c => 10 * a + digitVal c) 0

/-- Digit characters produced by `Nat.digitChar` below base 10. -/
theorem digitChar_isDigit (k : Nat) (h : k < 10) : (Nat.digitChar k).isDigit = true := by
  interval_cases k <;> decide

/-- `digitVal` inverts `Nat.digitChar` below base 10. -/
theorem digitVal_digitChar (k : Nat) (h : k < 10) : digitVal (Nat.digitChar k) = k := by
  interval_cases k <;> decide

/-- The core digit-emission loop produces a nonempty all-digit prefix whose
decimal value is the input, given enough fuel. -/
theorem toDigitsCore_spec : ∀ (fuel n : Nat) (ds : List Char), n < 10 ^ (fuel + 1) →
    ∃ D : List Char, Nat.toDigitsCore 10 (fuel + 1) n ds = D ++ ds
      ∧ D ≠ [] ∧ (∀ c ∈ D, c.isDigit = true) ∧ digitsVal D = n := by
  intro fuel
  induction fuel with
  | zero =>
    intro n ds h
    have hn : n < 10 := by simpa using h
    refine ⟨[Nat.digitChar (n % 10)], ?_, by simp, ?_, ?_⟩
    · show (if n / 10 = 0 then _ else _) = _
      rw [if_pos (by omega)]
      rfl
    · intro c hc
      simp at hc
      rw [hc]
      exact digitChar_isDigit _ (by omega)
    · show 10 * 0 + digitVal (Nat.digitChar (n % 10)) = n
      rw [digitVal_digitChar _ (by omega)]
      omega
  | succ f ih =>
    intro n ds h
    by_cases h0 : n / 10 = 0
    · refine ⟨[Nat.digitChar (n % 10)], ?_, by simp, ?_, ?_⟩
      · show (if n / 10 = 0 then _ else _) = _
        rw [if_pos h0]
        rfl
      · intro c hc
        simp at hc
        rw [hc]
        exact digitChar_isDigit _ (by omega)
      · show 10 * 0 + digitVal (Nat.digitChar (n % 10)) = n
        rw [digitVal_digitChar _ (by omega)]
        omega
    · have hlt : n / 10 < 10 ^ (f + 1) := by
        rw [Nat.div_lt_iff_lt_mul (by norm_num)]
        calc n < 10 ^ (f + 1 + 1) := h
        _ = 10 ^ (f + 1) * 10 := by ring
      obtain ⟨D, hD, hne, hdig, hval⟩ := ih (n / 10) (Nat.digitChar (n % 10) :: ds) hlt
      refine ⟨D ++ [Nat.digitChar (n % 10)], ?_, by simp, ?_, ?_⟩
      · show (if n / 10 = 0 then _ else Nat.toDigitsCore 10 (f + 1) (n / 10)
            (Nat.digitChar (n % 10) :: ds)) = _
        rw [if_neg h0, hD]
        simp
      · intro c hc
        rcases List.mem_append.mp hc with hc | hc
        · exact hdig c hc
        · simp at hc
          rw [hc]
          exact digitChar_isDigit _ (by omega)
      · unfold digitsVal
        rw [List.foldl_append]
        show 10 * digitsVal D + digitVal (Nat.digitChar (n % 10)) = n
        rw [hval, digitVal_digitChar _ (by omega)]
        omega

/-- The characters of `Nat.repr n` are a nonempty digit string of value `n`. -/
theorem repr_spec (n : Nat) :
    (Nat.repr n).data ≠ [] ∧ (∀ c ∈ (Nat.repr n).data, c.isDigit = true)
      ∧ digitsVal (Nat.repr n).data = n := by
  have hfu : n < 10 ^ (n + 1) := by
    calc n < 10 ^ n := Nat.lt_pow_self (by norm_num) n
    _ ≤ 10 ^ (n + 1) := Nat.pow_le_pow_right (by norm_num) (by omega)
  obtain ⟨D, hD, hne, hdig, hval⟩ := toDigitsCore_spec n n [] hfu
  have hdata : (Nat.repr n).data = D := by
    show (Nat.toDigits 10 n).asString.data = D
    unfold Nat.toDigits
    rw [hD]
    simp [List.asString]
  rw [hdata]
  exact ⟨hne, hdig, hval⟩

/-! ## Claim C6: label decoding -/

/-- The six label prefixes `new_label` is called with by `gen_stmt`. -/
def ctrlPrefixes : List String := ["else", "endif", "while", "endwhile", "for", "endfor"]

/-- No character of a control prefix is a digit. -/
theorem ctrlPrefixes_nodigit : ∀ p ∈ ctrlPrefixes, ∀ c ∈ p.data, c.isDigit = false := by
  decide

/-- The counter value encoded in a generated label: the value of its digit
suffix. -/
def labelNum (l : String) : Nat := digitsVal (l.data.dropWhile (fun c => !c.isDigit))

/-- Dropping the non-digit prefix of a prefix-plus-digits string leaves the
digit part. -/
theorem dropWhile_append_digits (p D : List Char) (hp : ∀ c ∈ p, c.isDigit = false)
    (hD : ∀ c ∈ D, c.isDigit = true) :
    (p ++ D).dropWhile (fun c => !c.isDigit) = D := by
  induction p with
  | nil =>
    cases D with
    | nil => rfl
    | cons d ds =>
      simp only [List.nil_append, List.dropWhile]
      rw [hD d (by simp)]
      rfl
  | cons c cs ih =>
    simp only [List.cons_append, List.dropWhile]
    rw [hp c (by simp)]
    exact ih (fun c' h' => hp c' (by simp [h']))

/-- Decoding a generated label recovers its counter value. -/
theorem labelNum_encode (p : String) (hp : p ∈ ctrlPrefixes) (n : Nat) :
    labelNum (p ++ Nat.repr n) = n := by
  obtain ⟨hne, hdig, hval⟩ := repr_spec n
  unfold labelNum
  rw [show (p ++ Nat.repr n).data = p.data ++ (Nat.repr n).data from String.data_append p _]
  rw [dropWhile_append_digits p.data (Nat.repr n).data (ctrlPrefixes_nodigit p hp) hdig]
  exact hval

/-! ## Claim C6: label-trace segments -/

/-- A well-formed trace segment: every label is a control prefix plus the
decimal counter value, and the decoded counter values are exactly the
consecutive range starting at `c0` of length `k`. -/
def SegOK (c0 k : Nat) (L : List String) : Prop :=
  (∀ l ∈ L, ∃ p n, p ∈ ctrlPrefixes ∧ l = p ++ Nat.repr n) ∧
  L.map labelNum = List.range' c0 k

/-- The empty segment. -/
theorem SegOK_nil (c0 : Nat) : SegOK c0 0 [] := ⟨by simp, by simp⟩

/-- A single freshly generated label. -/
theorem SegOK_single (p : String) (hp : p ∈ ctrlPrefixes) (n : Nat) :
    SegOK n 1 [p ++ Nat.repr n] := by
  constructor
  · intro l hl
    simp at hl
    exact ⟨p, n, hp, hl⟩
  · simp [labelNum_encode p hp n]

/-- Segments over adjacent counter ranges concatenate. -/
theorem SegOK_append (c0 k1 k2 : Nat) (L1 L2 : List String)
    (h1 : SegOK c0 k1 L1) (h2 : SegOK (c0 + k1) k2 L2) :
    SegOK c0 (k1 + k2) (L1 ++ L2) := by
  constructor
  · intro l hl
    rcases List.mem_append.mp hl with h | h
    exacts [h1.1 l h, h2.1 l h]
  · rw [List.map_append, h1.2, h2.2, Nat.add_comm k1 k2]
    exact List.range'_append_1 c0 k1 k2

/-- A well-formed segment has the promised length and no duplicate labels. -/
theorem SegOK_length_nodup (c0 k : Nat) (L : List String) (h : SegOK c0 k L) :
    L.length = k ∧ L.Nodup := by
  constructor
  · have := congrArg List.length h.2
    simpa using this
  · exact List.Nodup.of_map labelNum (h.2 ▸ List.nodup_range' c0 k)

mutual

/-- Number of control constructs (`if`/`while`/`for`) in a statement, at any
nesting depth. -/
def countCtrl : Stmt → Nat
  | .decl _ _ => 0
  | .exprStmt _ => 0
  | .ifS _ t e =>
    1 + countCtrlList t + (match e with | some l => countCtrlList l | none => 0)
  | .whileS _ b => 1 + countCtrlList b
  | .forS _ _ _ b => 1 + countCtrlList b
  | .ret _ => 0

def countCtrlList : List Stmt → Nat
  | [] => 0
  | s :: ss => countCtrl s + countCtrlList ss

end

/-- Control constructs in a whole program. -/
def countProgram (p : Program) : Nat :=
  (p.functions.map (fun f => countCtrlList f.body)).sum

/-- The label-relevant generator state: counter and ghost trace. -/
theorem emit_label_fields (c : String) (st : CGState) :
    (emit c st).label_count = st.label_count ∧ (emit c st).label_trace = st.label_trace :=
  ⟨rfl, rfl⟩

/-- The `Except` bind on a success. -/
theorem bind_ok_eq {ε α β : Type} (a : α) (f : α → Except ε β) :
    (bind (Except.ok a) f : Except ε β) = f a := rfl

/-- The `Except` bind on a raise. -/
theorem bind_error_eq {ε α β : Type} (e : ε) (f : α → Except ε β) :
    (bind (Except.error e) f : Except ε β) = Except.error e := rfl

/-- The `Except` pure. -/
theorem pure_eq_ok {ε α : Type} (a : α) : (pure a : Except ε α) = Except.ok a := rfl

/-- Generating an expression allocates no labels: the counter and the trace
are unchanged. -/
theorem gen_expr_cnt : ∀ fuel e st st', gen_expr fuel e st = .ok st' →
    st'.label_count = st.label_count ∧ st'.label_trace = st.label_trace := by
  intro fuel
  induction fuel with
  | zero =>
    intro e st st' h
    exact absurd h (by simp [gen_expr])
  | succ n ih =>
    intro e st st' h
    cases e with
    | number v =>
      rw [show gen_expr (n + 1) (.number v) st
          = .ok (emit ("    li $t0, " ++ Nat.repr v) st) from rfl] at h
      rw [← Except.ok.inj h]
      exact ⟨rfl, rfl⟩
    | strLit s =>
      rw [show gen_expr (n + 1) (.strLit s) st
          = .ok (emit ("    la $t0, " ++ (add_string s st).1) (add_string s st).2) from rfl] at h
      rw [← Except.ok.inj h]
      exact ⟨rfl, rfl⟩
    | var name =>
      rw [show gen_expr (n + 1) (.var name) st = (match st.vars.lookup name with
          | some offset => .ok (emit ("    lw $t0, " ++ toString offset ++ "($fp)") st)
          | none => .error ("KeyError: " ++ name)) from rfl] at h
      rcases hl : st.vars.lookup name with _ | off <;> rw [hl] at h
      · simp at h
      · rw [← Except.ok.inj h]
        exact ⟨rfl, rfl⟩
    | assign l r =>
      rw [show gen_expr (n + 1) (.assign l r) st = (gen_expr n r st).bind (fun st1 =>
          match l with
          | .var name =>
            (match st1.vars.lookup name with
              | some offset => .ok (emit ("    sw $t0, " ++ toString offset ++ "($fp)") st1)
              | none => .error ("KeyError: " ++ name))
          | _ => .ok st1) from rfl] at h
      rcases hg : gen_expr n r st with err | st1 <;> rw [hg] at h
      · simp [Except.bind] at h
      · simp only [Except.bind] at h
        obtain ⟨h1, h2⟩ := ih r st st1 hg
        split at h
        · split at h
          · rw [← Except.ok.inj h]
            exact ⟨h1, h2⟩
          · simp at h
        · rw [← Except.ok.inj h]
          exact ⟨h1, h2⟩
    | binop op l r =>
      rw [show gen_expr (n + 1) (.binop op l r) st = (gen_expr n l st).bind (fun st1 =>
          (gen_expr n r (emitAll ["    addi $sp, $sp, -4", "    sw $t0, 0($sp)"] st1)).bind
            (fun st2 => .ok (emitAll (binopCode op)
              (emitAll ["    move $t1, $t0", "    lw $t0, 0($sp)", "    addi $sp, $sp, 4"]
                st2)))) from rfl] at h
      rcases hg1 : gen_expr n l st with err | st1 <;> rw [hg1] at h
      · simp [Except.bind] at h
      · simp only [Except.bind] at h
        rcases hg2 : gen_expr n r (emitAll ["    addi $sp, $sp, -4", "    sw $t0, 0($sp)"] st1)
          with err | st2 <;> rw [hg2] at h
        · simp [Except.bind] at h
        · simp only [Except.bind] at h
          obtain ⟨h1, h2⟩ := ih l st st1 hg1
          obtain ⟨h3, h4⟩ := ih r _ st2 hg2
          rw [← Except.ok.inj h]
          refine ⟨?_, ?_⟩
          · show st2.label_count = st.label_count
            rw [h3]
            exact h1
          · show st2.label_trace = st.label_trace
            rw [h4]
            exact h2
    | preop op operand =>
      cases operand
      case var name =>
        rw [show gen_expr (n + 1) (.preop op (.var name)) st = (match st.vars.lookup name with
            | some offset => .ok (emit ("    sw $t0, " ++ toString offset ++ "($fp)")
                (emit (if op = "++" then "    addi $t0, $t0, 1" else "    addi $t0, $t0, -1")
                  (emit ("    lw $t0, " ++ toString offset ++ "($fp)") st)))
            | none => .error ("KeyError: " ++ name)) from rfl] at h
        rcases hl : st.vars.lookup name with _ | off <;> rw [hl] at h
        · simp at h
        · rw [← Except.ok.inj h]
          exact ⟨rfl, rfl⟩
      all_goals exact absurd h (by simp [gen_expr])
    | postop op operand =>
      cases operand
      case var name =>
        rw [show gen_expr (n + 1) (.postop op (.var name)) st = (match st.vars.lookup name with
            | some offset => .ok (emit "    move $t0, $t2"
                (emit ("    sw $t0, " ++ toString offset ++ "($fp)")
                  (emit (if op = "++" then "    addi $t0, $t0, 1" else "    addi $t0, $t0, -1")
                    (emit "    move $t2, $t0"
                      (emit ("    lw $t0, " ++ toString offset ++ "($fp)") st)))))
            | none => .error ("KeyError: " ++ name)) from rfl] at h
        rcases hl : st.vars.lookup name with _ | off <;> rw [hl] at h
        · simp at h
        · rw [← Except.ok.inj h]
          exact ⟨rfl, rfl⟩
      all_goals exact absurd h (by simp [gen_expr])
    | call name args =>
      by_cases hpi : name = "print_int"
      · subst hpi
        cases args with
        | nil => exact absurd h (by simp [gen_expr])
        | cons a rest =>
          rw [show gen_expr (n + 1) (.call "print_int" (a :: rest)) st
              = (gen_expr n a st).bind (fun st1 =>
                .ok (emitAll ["    move $a0, $t0", "    jal print_int"] st1)) from rfl] at h
          rcases hg : gen_expr n a st with err | st1 <;> rw [hg] at h
          · simp [Except.bind] at h
          · simp only [Except.bind] at h
            obtain ⟨h1, h2⟩ := ih a st st1 hg
            rw [← Except.ok.inj h]
            exact ⟨h1, h2⟩
      · by_cases hps : name = "print_str"
        · subst hps
          cases args with
          | nil => exact absurd h (by simp [gen_expr])
          | cons a rest =>
            rw [show gen_expr (n + 1) (.call "print_str" (a :: rest)) st
                = (gen_expr n a st).bind (fun st1 =>
                  .ok (emitAll ["    move $a0, $t0", "    jal print_str"] st1)) from rfl] at h
            rcases hg : gen_expr n a st with err | st1 <;> rw [hg] at h
            · simp [Except.bind] at h
            · simp only [Except.bind] at h
              obtain ⟨h1, h2⟩ := ih a st st1 hg
              rw [← Except.ok.inj h]
              exact ⟨h1, h2⟩
        · have e2 : gen_expr (n + 1) (.call name args) st = .ok st := by
            show (if name = "print_int" then _ else if name = "print_str" then _ else
              Except.ok st) = Except.ok st
            rw [if_neg hpi, if_neg hps]
          rw [e2] at h
          rw [← Except.ok.inj h]
          exact ⟨rfl, rfl⟩

/-- The optional-expression helper allocates no labels. -/
theorem gen_opt_expr_cnt (fuel : Nat) (o : Option Expr) (st st' : CGState)
    (h : gen_opt_expr fuel o st = .ok st') :
    st'.label_count = st.label_count ∧ st'.label_trace = st.label_trace := by
  cases o with
  | none =>
    rw [show gen_opt_expr fuel none st = .ok st from rfl] at h
    rw [← Except.ok.inj h]
    exact ⟨rfl, rfl⟩
  | some e =>
    rw [show gen_opt_expr fuel (some e) st = gen_expr fuel e st from rfl] at h
    exact gen_expr_cnt fuel e st st' h

/-- The for-condition helper allocates no labels. -/
theorem gen_for_cond_cnt (fuel : Nat) (o : Option Expr) (lbl : String) (st st' : CGState)
    (h : gen_for_cond fuel o lbl st = .ok st') :
    st'.label_count = st.label_count ∧ st'.label_trace = st.label_trace := by
  cases o with
  | none =>
    rw [show gen_for_cond fuel none lbl st = .ok st from rfl] at h
    rw [← Except.ok.inj h]
    exact ⟨rfl, rfl⟩
  | some c =>
    rw [show gen_for_cond fuel (some c) lbl st = (gen_expr fuel c st).bind (fun st1 =>
        .ok (emit ("    beq $t0, $zero, " ++ lbl) st1)) from rfl] at h
    rcases hg : gen_expr fuel c st with err | st1 <;> rw [hg] at h
    · simp [Except.bind] at h
    · simp only [Except.bind] at h
      obtain ⟨h1, h2⟩ := gen_expr_cnt fuel c st st1 hg
      rw [← Except.ok.inj h]
      exact ⟨h1, h2⟩

/-- Transport a segment along a count equality. -/
theorem SegOK_congr {c0 k k' : Nat} {L : List String} (h : SegOK c0 k L) (hk : k = k') :
    SegOK c0 k' L := hk ▸ h

/-- Membership of the four statement prefixes in the prefix table. -/
theorem else_mem : "else" ∈ ctrlPrefixes := by decide

theorem endif_mem : "endif" ∈ ctrlPrefixes := by decide

theorem while_mem : "while" ∈ ctrlPrefixes := by decide

theorem endwhile_mem : "endwhile" ∈ ctrlPrefixes := by decide

theorem for_mem : "for" ∈ ctrlPrefixes := by decide

theorem endfor_mem : "endfor" ∈ ctrlPrefixes := by decide

/-- Generation allocates exactly two fresh labels per control construct:
after a successful `gen_stmt`/`gen_stmts` the counter has advanced by twice
the number of control constructs and the ghost trace has grown by a
well-formed segment over exactly that counter range. -/
theorem gen_seg : ∀ fuel,
    (∀ s st st', gen_stmt fuel s st = .ok st' →
      st'.label_count = st.label_count + 2 * countCtrl s
      ∧ ∃ seg, st'.label_trace = st.label_trace ++ seg
          ∧ SegOK st.label_count (2 * countCtrl s) seg)
    ∧ (∀ ss st st', gen_stmts fuel ss st = .ok st' →
      st'.label_count = st.label_count + 2 * countCtrlList ss
      ∧ ∃ seg, st'.label_trace = st.label_trace ++ seg
          ∧ SegOK st.label_count (2 * countCtrlList ss) seg) := by
  intro fuel
  induction fuel with
  | zero =>
    constructor
    · intro s st st' h
      exact absurd h (by simp [gen_stmt])
    · intro ss st st' h
      exact absurd h (by simp [gen_stmts])
  | succ n ih =>
    constructor
    · intro s st st' h
      cases s with
      | decl name init =>
        cases init with
        | none =>
          rw [show gen_stmt (n + 1) (.decl name none) st =
              .ok { emit "    addi $sp, $sp, -4" st with
                stack_offset := st.stack_offset + 4,
                vars := (name, -(st.stack_offset + 4 : Int)) :: st.vars } from rfl] at h
          rw [← Except.ok.inj h]
          exact ⟨by simp [countCtrl, emit], [], by simp [emit], SegOK_nil _⟩
        | some e =>
          rw [show gen_stmt (n + 1) (.decl name (some e)) st =
              (gen_expr n e { emit "    addi $sp, $sp, -4" st with
                  stack_offset := st.stack_offset + 4,
                  vars := (name, -(st.stack_offset + 4 : Int)) :: st.vars }).bind (fun st3 =>
                match st3.vars.lookup name with
                | some off => .ok (emit ("    sw $t0, " ++ toString off ++ "($fp)") st3)
                | none => .error ("KeyError: " ++ name)) from rfl] at h
          rcases hg : gen_expr n e { emit "    addi $sp, $sp, -4" st with
              stack_offset := st.stack_offset + 4,
              vars := (name, -(st.stack_offset + 4 : Int)) :: st.vars } with err | st3 <;>
            rw [hg] at h
          · simp [Except.bind] at h
          · simp only [Except.bind] at h
            obtain ⟨h1, h2⟩ := gen_expr_cnt n e _ st3 hg
            split at h
            · rw [← Except.ok.inj h]
              refine ⟨?_, [], ?_, SegOK_nil _⟩
              · show st3.label_count = st.label_count + 2 * countCtrl (.decl name (some e))
                simp [countCtrl]
                exact h1
              · show st3.label_trace = st.label_trace ++ []
                simpa using h2
            · simp at h
      | exprStmt e =>
        rw [show gen_stmt (n + 1) (.exprStmt e) st = gen_expr n e st from rfl] at h
        obtain ⟨h1, h2⟩ := gen_expr_cnt n e st st' h
        refine ⟨?_, [], ?_, SegOK_nil _⟩
        · simp [countCtrl]
          exact h1
        · simpa using h2
      | ret v =>
        cases v with
        | none =>
          rw [show gen_stmt (n + 1) (.ret none) st =
              .ok (emit "    j main_exit" st) from rfl] at h
          rw [← Except.ok.inj h]
          exact ⟨by simp [countCtrl, emit], [], by simp [emit], SegOK_nil _⟩
        | some e =>
          rw [show gen_stmt (n + 1) (.ret (some e)) st = (gen_expr n e st).bind (fun st1 =>
              .ok (emit "    j main_exit" (emit "    move $v0, $t0" st1))) from rfl] at h
          rcases hg : gen_expr n e st with err | st1 <;> rw [hg] at h
          · simp [Except.bind] at h
          · simp only [Except.bind] at h
            obtain ⟨h1, h2⟩ := gen_expr_cnt n e st st1 hg
            rw [← Except.ok.inj h]
            refine ⟨?_, [], ?_, SegOK_nil _⟩
            · show st1.label_count = st.label_count + 2 * countCtrl (.ret (some e))
              simp [countCtrl]
              exact h1
            · show st1.label_trace = st.label_trace ++ []
              simpa using h2
      | whileS cond body =>
        rw [show gen_stmt (n + 1) (.whileS cond body) st =
            (gen_expr n cond (emit ((new_label "while" st).1 ++ ":")
                (new_label "endwhile" (new_label "while" st).2).2)).bind (fun s1 =>
              (gen_stmts n body
                  (emit ("    beq $t0, $zero, " ++ (new_label "endwhile" (new_label "while" st).2).1)
                    s1)).bind (fun s2 =>
                Except.ok (emit ((new_label "endwhile" (new_label "while" st).2).1 ++ ":")
                  (emit ("    j " ++ (new_label "while" st).1) s2)))) from rfl] at h
        rcases hg1 : gen_expr n cond (emit ((new_label "while" st).1 ++ ":")
            (new_label "endwhile" (new_label "while" st).2).2) with err | s1 <;> rw [hg1] at h
        · simp [Except.bind] at h
        · simp only [Except.bind] at h
          rcases hg2 : gen_stmts n body
              (emit ("    beq $t0, $zero, " ++ (new_label "endwhile" (new_label "while" st).2).1)
                s1) with err | s2 <;> rw [hg2] at h
          · simp [Except.bind] at h
          · simp only [Except.bind] at h
            obtain ⟨h1, h2⟩ := gen_expr_cnt n cond _ s1 hg1
            obtain ⟨h3, h4⟩ := ih.2 body _ s2 hg2
            rw [← Except.ok.inj h]
            obtain ⟨segB, hsB, hOKB⟩ := h4
            have hc1 : s1.label_count = st.label_count + 2 := h1
            have ht1 : s1.label_trace = st.label_trace ++
                ["while" ++ Nat.repr st.label_count,
                 "endwhile" ++ Nat.repr (st.label_count + 1)] := by
              rw [h2]
              show (st.label_trace ++ ["while" ++ Nat.repr st.label_count]) ++
                  ["endwhile" ++ Nat.repr (st.label_count + 1)] = _
              simp
            refine ⟨?_, ["while" ++ Nat.repr st.label_count,
                "endwhile" ++ Nat.repr (st.label_count + 1)] ++ segB, ?_, ?_⟩
            · show s2.label_count = st.label_count + 2 * countCtrl (.whileS cond body)
              rw [h3]
              show s1.label_count + 2 * countCtrlList body = _
              rw [hc1]
              simp [countCtrl]
              ring
            · show s2.label_trace = _
              rw [hsB]
              show s1.label_trace ++ segB = _
              rw [ht1]
              simp
            · have hOKB' : SegOK (st.label_count + 2) (2 * countCtrlList body) segB := by
                have : (emit ("    beq $t0, $zero, " ++
                    (new_label "endwhile" (new_label "while" st).2).1) s1).label_count
                    = st.label_count + 2 := hc1
                rw [← this]
                exact hOKB
              have base : SegOK st.label_count (1 + (1 + 2 * countCtrlList body))
                  (["while" ++ Nat.repr st.label_count] ++
                    (["endwhile" ++ Nat.repr (st.label_count + 1)] ++ segB)) := by
                refine SegOK_append _ 1 _ _ _ (SegOK_single "while" while_mem _) ?_
                refine SegOK_append _ 1 _ _ _ (SegOK_single "endwhile" endwhile_mem _) ?_
                exact hOKB'
              refine SegOK_congr (k := 1 + (1 + 2 * countCtrlList body)) ?_ ?_
              · simpa using base
              · simp [countCtrl]
                ring
      | ifS cond thenB elseB =>
        cases elseB with
        | none =>
          rw [show gen_stmt (n + 1) (.ifS cond thenB none) st =
              (gen_expr n cond (new_label "endif" (new_label "else" st).2).2).bind (fun s1 =>
                (gen_stmts n thenB
                    (emit ("    beq $t0, $zero, " ++ (new_label "else" st).1) s1)).bind (fun s2 =>
                  Except.ok (emit ((new_label "endif" (new_label "else" st).2).1 ++ ":")
                    (emit ((new_label "else" st).1 ++ ":")
                      (emit ("    j " ++ (new_label "endif" (new_label "else" st).2).1) s2)))))
              from rfl] at h
          rcases hg1 : gen_expr n cond (new_label "endif" (new_label "else" st).2).2
            with err | s1 <;> rw [hg1] at h
          · simp [Except.bind] at h
          · simp only [Except.bind] at h
            rcases hg2 : gen_stmts n thenB
                (emit ("    beq $t0, $zero, " ++ (new_label "else" st).1) s1)
              with err | s2 <;> rw [hg2] at h
            · simp [Except.bind] at h
            · simp only [Except.bind] at h
              obtain ⟨h1, h2⟩ := gen_expr_cnt n cond _ s1 hg1
              obtain ⟨h3, h4⟩ := ih.2 thenB _ s2 hg2
              rw [← Except.ok.inj h]
              obtain ⟨segT, hsT, hOKT⟩ := h4
              have hc1 : s1.label_count = st.label_count + 2 := h1
              have ht1 : s1.label_trace = st.label_trace ++
                  ["else" ++ Nat.repr st.label_count,
                   "endif" ++ Nat.repr (st.label_count + 1)] := by
                rw [h2]
                show (st.label_trace ++ ["else" ++ Nat.repr st.label_count]) ++
                    ["endif" ++ Nat.repr (st.label_count + 1)] = _
                simp
              refine ⟨?_, ["else" ++ Nat.repr st.label_count,
                  "endif" ++ Nat.repr (st.label_count + 1)] ++ segT, ?_, ?_⟩
              · show s2.label_count = st.label_count + 2 * countCtrl (.ifS cond thenB none)
                rw [h3]
                show s1.label_count + 2 * countCtrlList thenB = _
                rw [hc1]
                simp [countCtrl]
                ring
              · show s2.label_trace = _
                rw [hsT]
                show s1.label_trace ++ segT = _
                rw [ht1]
                simp
              · have hOKT' : SegOK (st.label_count + 2) (2 * countCtrlList thenB) segT := by
                  have : (emit ("    beq $t0, $zero, " ++ (new_label "else" st).1)
                      s1).label_count = st.label_count + 2 := hc1
                  rw [← this]
                  exact hOKT
                have base : SegOK st.label_count (1 + (1 + 2 * countCtrlList thenB))
                    (["else" ++ Nat.repr st.label_count] ++
                      (["endif" ++ Nat.repr (st.label_count + 1)] ++ segT)) := by
                  refine SegOK_append _ 1 _ _ _ (SegOK_single "else" else_mem _) ?_
                  refine SegOK_append _ 1 _ _ _ (SegOK_single "endif" endif_mem _) ?_
                  exact hOKT'
                refine SegOK_congr (k := 1 + (1 + 2 * countCtrlList thenB)) ?_ ?_
                · simpa using base
                · simp [countCtrl]
                  ring
        | some es =>
          rw [show gen_stmt (n + 1) (.ifS cond thenB (some es)) st =
              (gen_expr n cond (new_label "endif" (new_label "else" st).2).2).bind (fun s1 =>
                (gen_stmts n thenB
                    (emit ("    beq $t0, $zero, " ++ (new_label "else" st).1) s1)).bind (fun s2 =>
                  (gen_stmts n es (emit ((new_label "else" st).1 ++ ":")
                      (emit ("    j " ++ (new_label "endif" (new_label "else" st).2).1) s2))).bind
                    (fun s3 =>
                      Except.ok (emit ((new_label "endif" (new_label "else" st).2).1 ++ ":") s3))))
              from rfl] at h
          rcases hg1 : gen_expr n cond (new_label "endif" (new_label "else" st).2).2
            with err | s1 <;> rw [hg1] at h
          · simp [Except.bind] at h
          · simp only [Except.bind] at h
            rcases hg2 : gen_stmts n thenB
                (emit ("    beq $t0, $zero, " ++ (new_label "else" st).1) s1)
              with err | s2 <;> rw [hg2] at h
            · simp [Except.bind] at h
            · simp only [Except.bind] at h
              rcases hg3 : gen_stmts n es (emit ((new_label "else" st).1 ++ ":")
                  (emit ("    j " ++ (new_label "endif" (new_label "else" st).2).1) s2))
                with err | s3 <;> rw [hg3] at h
              · simp [Except.bind] at h
              · simp only [Except.bind] at h
                obtain ⟨h1, h2⟩ := gen_expr_cnt n cond _ s1 hg1
                obtain ⟨h3, h4⟩ := ih.2 thenB _ s2 hg2
                obtain ⟨h5, h6⟩ := ih.2 es _ s3 hg3
                rw [← Except.ok.inj h]
                obtain ⟨segT, hsT, hOKT⟩ := h4
                obtain ⟨segE, hsE, hOKE⟩ := h6
                have hc1 : s1.label_count = st.label_count + 2 := h1
                have hc2 : s2.label_count = st.label_count + 2 + 2 * countCtrlList thenB := by
                  rw [h3]
                  show s1.label_count + 2 * countCtrlList thenB = _
                  rw [hc1]
                have ht1 : s1.label_trace = st.label_trace ++
                    ["else" ++ Nat.repr st.label_count,
                     "endif" ++ Nat.repr (st.label_count + 1)] := by
                  rw [h2]
                  show (st.label_trace ++ ["else" ++ Nat.repr st.label_count]) ++
                      ["endif" ++ Nat.repr (st.label_count + 1)] = _
                  simp
                refine ⟨?_, ["else" ++ Nat.repr st.label_count,
                    "endif" ++ Nat.repr (st.label_count + 1)] ++ (segT ++ segE), ?_, ?_⟩
                · show s3.label_count = st.label_count + 2 * countCtrl (.ifS cond thenB (some es))
                  rw [h5]
                  show s2.label_count + 2 * countCtrlList es = _
                  rw [hc2]
                  simp [countCtrl]
                  ring
                · show s3.label_trace = _
                  rw [hsE]
                  show s2.label_trace ++ segE = _
                  rw [hsT]
                  show (s1.label_trace ++ segT) ++ segE = _
                  rw [ht1]
                  simp
                · have hOKT' : SegOK (st.label_count + 2) (2 * countCtrlList thenB) segT := by
                    have he : (emit ("    beq $t0, $zero, " ++ (new_label "else" st).1)
                        s1).label_count = st.label_count + 2 := hc1
                    rw [← he]
                    exact hOKT
                  have hOKE' : SegOK (st.label_count + 2 + 2 * countCtrlList thenB)
                      (2 * countCtrlList es) segE := by
                    have he : (emit ((new_label "else" st).1 ++ ":")
                        (emit ("    j " ++ (new_label "endif" (new_label "else" st).2).1)
                          s2)).label_count = st.label_count + 2 + 2 * countCtrlList thenB := hc2
                    rw [← he]
                    exact hOKE
                  have base : SegOK st.label_count
                      (1 + (1 + (2 * countCtrlList thenB + 2 * countCtrlList es)))
                      (["else" ++ Nat.repr st.label_count] ++
                        (["endif" ++ Nat.repr (st.label_count + 1)] ++ (segT ++ segE))) := by
                    refine SegOK_append _ 1 _ _ _ (SegOK_single "else" else_mem _) ?_
                    refine SegOK_append _ 1 _ _ _ (SegOK_single "endif" endif_mem _) ?_
                    exact SegOK_append _ _ _ _ _ hOKT' hOKE'
                  refine SegOK_congr
                    (k := 1 + (1 + (2 * countCtrlList thenB + 2 * countCtrlList es))) ?_ ?_
                  · simpa using base
                  · simp [countCtrl]
                    ring
      | forS init cond update body =>
        cases init with
        | none =>
          rw [show gen_stmt (n + 1) (.forS none cond update body) st =
              (gen_for_cond n cond (new_label "endfor" (new_label "for" st).2).1
                  (emit ((new_label "for" st).1 ++ ":")
                    (new_label "endfor" (new_label "for" st).2).2)).bind (fun s1 =>
                (gen_stmts n body s1).bind (fun s2 =>
                  (gen_opt_expr n update s2).bind (fun s3 =>
                    Except.ok (emit ((new_label "endfor" (new_label "for" st).2).1 ++ ":")
                      (emit ("    j " ++ (new_label "for" st).1) s3))))) from rfl] at h
          rcases hg1 : gen_for_cond n cond (new_label "endfor" (new_label "for" st).2).1
              (emit ((new_label "for" st).1 ++ ":")
                (new_label "endfor" (new_label "for" st).2).2) with err | s1 <;> rw [hg1] at h
          · simp [Except.bind] at h
          · simp only [Except.bind] at h
            rcases hg2 : gen_stmts n body s1 with err | s2 <;> rw [hg2] at h
            · simp [Except.bind] at h
            · simp only [Except.bind] at h
              rcases hg3 : gen_opt_expr n update s2 with err | s3 <;> rw [hg3] at h
              · simp [Except.bind] at h
              · simp only [Except.bind] at h
                obtain ⟨h1, h2⟩ := gen_for_cond_cnt n cond _ _ s1 hg1
                obtain ⟨h3, h4⟩ := ih.2 body _ s2 hg2
                obtain ⟨h5, h6⟩ := gen_opt_expr_cnt n update _ s3 hg3
                rw [← Except.ok.inj h]
                obtain ⟨segB, hsB, hOKB⟩ := h4
                have hc1 : s1.label_count = st.label_count + 2 := h1
                have ht1 : s1.label_trace = st.label_trace ++
                    ["for" ++ Nat.repr st.label_count,
                     "endfor" ++ Nat.repr (st.label_count + 1)] := by
                  rw [h2]
                  show (st.label_trace ++ ["for" ++ Nat.repr st.label_count]) ++
                      ["endfor" ++ Nat.repr (st.label_count + 1)] = _
                  simp
                refine ⟨?_, ["for" ++ Nat.repr st.label_count,
                    "endfor" ++ Nat.repr (st.label_count + 1)] ++ segB, ?_, ?_⟩
                · show s3.label_count = st.label_count + 2 * countCtrl (.forS none cond update body)
                  rw [h5, h3, hc1]
                  simp [countCtrl]
                  ring
                · show s3.label_trace = _
                  rw [h6, hsB, ht1]
                  simp
                · have hOKB' : SegOK (st.label_count + 2) (2 * countCtrlList body) segB := by
                    rw [← hc1]
                    exact hOKB
                  have base : SegOK st.label_count (1 + (1 + 2 * countCtrlList body))
                      (["for" ++ Nat.repr st.label_count] ++
                        (["endfor" ++ Nat.repr (st.label_count + 1)] ++ segB)) := by
                    refine SegOK_append _ 1 _ _ _ (SegOK_single "for" for_mem _) ?_
                    refine SegOK_append _ 1 _ _ _ (SegOK_single "endfor" endfor_mem _) ?_
                    exact hOKB'
                  refine SegOK_congr (k := 1 + (1 + 2 * countCtrlList body)) ?_ ?_
                  · simpa using base
                  · simp [countCtrl]
                    ring
        | some fi =>
          cases fi with
          | declI nm i =>
            rw [show gen_stmt (n + 1) (.forS (some (.declI nm i)) cond update body) st =
                (gen_stmt n (.decl nm i) (new_label "endfor" (new_label "for" st).2).2).bind
                  (fun s0 =>
                    (gen_for_cond n cond (new_label "endfor" (new_label "for" st).2).1
                        (emit ((new_label "for" st).1 ++ ":") s0)).bind (fun s1 =>
                      (gen_stmts n body s1).bind (fun s2 =>
                        (gen_opt_expr n update s2).bind (fun s3 =>
                          Except.ok (emit ((new_label "endfor" (new_label "for" st).2).1 ++ ":")
                            (emit ("    j " ++ (new_label "for" st).1) s3)))))) from rfl] at h
            rcases hg0 : gen_stmt n (.decl nm i) (new_label "endfor" (new_label "for" st).2).2
              with err | s0 <;> rw [hg0] at h
            · simp [Except.bind] at h
            · simp only [Except.bind] at h
              rcases hg1 : gen_for_cond n cond (new_label "endfor" (new_label "for" st).2).1
                  (emit ((new_label "for" st).1 ++ ":") s0) with err | s1 <;> rw [hg1] at h
              · simp [Except.bind] at h
              · simp only [Except.bind] at h
                rcases hg2 : gen_stmts n body s1 with err | s2 <;> rw [hg2] at h
                · simp [Except.bind] at h
                · simp only [Except.bind] at h
                  rcases hg3 : gen_opt_expr n update s2 with err | s3 <;> rw [hg3] at h
                  · simp [Except.bind] at h
                  · simp only [Except.bind] at h
                    obtain ⟨h7, h8⟩ := ih.1 (.decl nm i) _ s0 hg0
                    obtain ⟨h1, h2⟩ := gen_for_cond_cnt n cond _ _ s1 hg1
                    obtain ⟨h3, h4⟩ := ih.2 body _ s2 hg2
                    obtain ⟨h5, h6⟩ := gen_opt_expr_cnt n update _ s3 hg3
                    rw [← Except.ok.inj h]
                    obtain ⟨segD, hsD, hOKD⟩ := h8
                    obtain ⟨segB, hsB, hOKB⟩ := h4
                    have hsegD : segD = [] := by
                      simpa [countCtrl] using hOKD.2
                    have hc0 : s0.label_count = st.label_count + 2 := by
                      rw [h7]
                      simp [countCtrl, new_label]
                    have hc1 : s1.label_count = st.label_count + 2 := by
                      rw [h1]
                      exact hc0
                    have ht1 : s1.label_trace = st.label_trace ++
                        ["for" ++ Nat.repr st.label_count,
                         "endfor" ++ Nat.repr (st.label_count + 1)] := by
                      rw [h2]
                      show s0.label_trace = _
                      rw [hsD, hsegD]
                      show ((st.label_trace ++ ["for" ++ Nat.repr st.label_count]) ++
                          ["endfor" ++ Nat.repr (st.label_count + 1)]) ++ [] = _
                      simp
                    refine ⟨?_, ["for" ++ Nat.repr st.label_count,
                        "endfor" ++ Nat.repr (st.label_count + 1)] ++ segB, ?_, ?_⟩
                    · show s3.label_count = st.label_count +
                        2 * countCtrl (.forS (some (.declI nm i)) cond update body)
                      rw [h5, h3, hc1]
                      simp [countCtrl]
                      ring
                    · show s3.label_trace = _
                      rw [h6, hsB, ht1]
                      simp
                    · have hOKB' : SegOK (st.label_count + 2) (2 * countCtrlList body) segB := by
                        rw [← hc1]
                        exact hOKB
                      have base : SegOK st.label_count (1 + (1 + 2 * countCtrlList body))
                          (["for" ++ Nat.repr st.label_count] ++
                            (["endfor" ++ Nat.repr (st.label_count + 1)] ++ segB)) := by
                        refine SegOK_append _ 1 _ _ _ (SegOK_single "for" for_mem _) ?_
                        refine SegOK_append _ 1 _ _ _ (SegOK_single "endfor" endfor_mem _) ?_
                        exact hOKB'
                      refine SegOK_congr (k := 1 + (1 + 2 * countCtrlList body)) ?_ ?_
                      · simpa using base
                      · simp [countCtrl]
                        ring
          | exprI e =>
            rw [show gen_stmt (n + 1) (.forS (some (.exprI e)) cond update body) st =
                (gen_expr n e (new_label "endfor" (new_label "for" st).2).2).bind (fun s0 =>
                  (gen_for_cond n cond (new_label "endfor" (new_label "for" st).2).1
                      (emit ((new_label "for" st).1 ++ ":") s0)).bind (fun s1 =>
                    (gen_stmts n body s1).bind (fun s2 =>
                      (gen_opt_expr n update s2).bind (fun s3 =>
                        Except.ok (emit ((new_label "endfor" (new_label "for" st).2).1 ++ ":")
                          (emit ("    j " ++ (new_label "for" st).1) s3)))))) from rfl] at h
            rcases hg0 : gen_expr n e (new_label "endfor" (new_label "for" st).2).2
              with err | s0 <;> rw [hg0] at h
            · simp [Except.bind] at h
            · simp only [Except.bind] at h
              rcases hg1 : gen_for_cond n cond (new_label "endfor" (new_label "for" st).2).1
                  (emit ((new_label "for" st).1 ++ ":") s0) with err | s1 <;> rw [hg1] at h
              · simp [Except.bind] at h
              · simp only [Except.bind] at h
                rcases hg2 : gen_stmts n body s1 with err | s2 <;> rw [hg2] at h
                · simp [Except.bind] at h
                · simp only [Except.bind] at h
                  rcases hg3 : gen_opt_expr n update s2 with err | s3 <;> rw [hg3] at h
                  · simp [Except.bind] at h
                  · simp only [Except.bind] at h
                    obtain ⟨h7, h8⟩ := gen_expr_cnt n e _ s0 hg0
                    obtain ⟨h1, h2⟩ := gen_for_cond_cnt n cond _ _ s1 hg1
                    obtain ⟨h3, h4⟩ := ih.2 body _ s2 hg2
                    obtain ⟨h5, h6⟩ := gen_opt_expr_cnt n update _ s3 hg3
                    rw [← Except.ok.inj h]
                    obtain ⟨segB, hsB, hOKB⟩ := h4
                    have hc1 : s1.label_count = st.label_count + 2 := by
                      rw [h1]
                      show s0.label_count = _
                      rw [h7]
                      rfl
                    have ht1 : s1.label_trace = st.label_trace ++
                        ["for" ++ Nat.repr st.label_count,
                         "endfor" ++ Nat.repr (st.label_count + 1)] := by
                      rw [h2]
                      show s0.label_trace = _
                      rw [h8]
                      show (st.label_trace ++ ["for" ++ Nat.repr st.label_count]) ++
                          ["endfor" ++ Nat.repr (st.label_count + 1)] = _
                      simp
                    refine ⟨?_, ["for" ++ Nat.repr st.label_count,
                        "endfor" ++ Nat.repr (st.label_count + 1)] ++ segB, ?_, ?_⟩
                    · show s3.label_count = st.label_count +
                        2 * countCtrl (.forS (some (.exprI e)) cond update body)
                      rw [h5, h3, hc1]
                      simp [countCtrl]
                      ring
                    · show s3.label_trace = _
                      rw [h6, hsB, ht1]
                      simp
                    · have hOKB' : SegOK (st.label_count + 2) (2 * countCtrlList body) segB := by
                        rw [← hc1]
                        exact hOKB
                      have base : SegOK st.label_count (1 + (1 + 2 * countCtrlList body))
                          (["for" ++ Nat.repr st.label_count] ++
                            (["endfor" ++ Nat.repr (st.label_count + 1)] ++ segB)) := by
                        refine SegOK_append _ 1 _ _ _ (SegOK_single "for" for_mem _) ?_
                        refine SegOK_append _ 1 _ _ _ (SegOK_single "endfor" endfor_mem _) ?_
                        exact hOKB'
                      refine SegOK_congr (k := 1 + (1 + 2 * countCtrlList body)) ?_ ?_
                      · simpa using base
                      · simp [countCtrl]
                        ring
    · intro ss st st' h
      cases ss with
      | nil =>
        rw [show gen_stmts (n + 1) [] st = .ok st from rfl] at h
        rw [← Except.ok.inj h]
        exact ⟨by simp [countCtrlList], [], by simp, SegOK_nil _⟩
      | cons s rest =>
        rw [show gen_stmts (n + 1) (s :: rest) st = (gen_stmt n s st).bind (fun st1 =>
            gen_stmts n rest st1) from rfl] at h
        rcases hg1 : gen_stmt n s st with err | st1 <;> rw [hg1] at h
        · simp [Except.bind] at h
        · simp only [Except.bind] at h
          obtain ⟨h1, h2⟩ := ih.1 s st st1 hg1
          obtain ⟨h3, h4⟩ := ih.2 rest st1 st' h
          obtain ⟨seg1, hs1, hOK1⟩ := h2
          obtain ⟨seg2, hs2, hOK2⟩ := h4
          refine ⟨?_, seg1 ++ seg2, ?_, ?_⟩
          · rw [h3, h1]
            simp [countCtrlList]
            ring
          · rw [hs2, hs1]
            simp
          · have hOK2' : SegOK (st.label_count + 2 * countCtrl s)
                (2 * countCtrlList rest) seg2 := by
              rw [← h1]
              exact hOK2
            refine SegOK_congr (SegOK_append _ _ _ _ _ hOK1 hOK2') ?_
            simp [countCtrlList]
            ring

/-- Per-function label accounting (the prologue/epilogue emits allocate no
labels; only the body's control constructs do). -/
theorem gen_function_seg (fuel : Nat) (f : Func) (st st' : CGState)
    (h : gen_function fuel f st = .ok st') :
    st'.label_count = st.label_count + 2 * countCtrlList f.body
    ∧ ∃ seg, st'.label_trace = st.label_trace ++ seg
        ∧ SegOK st.label_count (2 * countCtrlList f.body) seg := by
  have e2 : gen_function fuel f st =
      (gen_stmts fuel f.body
        { emitAll [f.name ++ ":", "    addi $sp, $sp, -8", "    sw $ra, 4($sp)",
            "    sw $fp, 0($sp)", "    move $fp, $sp"] st with
          vars := [], stack_offset := 0 }).bind
        (fun stB => Except.ok (emitAll [f.name ++ "_exit:", "    move $sp, $fp",
          "    lw $fp, 0($sp)", "    lw $ra, 4($sp)", "    addi $sp, $sp, 8",
          "    jr $ra", ""] stB)) := rfl
  rw [e2] at h
  rcases hg : gen_stmts fuel f.body
      { emitAll [f.name ++ ":", "    addi $sp, $sp, -8", "    sw $ra, 4($sp)",
          "    sw $fp, 0($sp)", "    move $fp, $sp"] st with
        vars := [], stack_offset := 0 } with err | stB <;> rw [hg] at h
  · simp [Except.bind] at h
  · simp only [Except.bind] at h
    obtain ⟨h1, seg, hs, hOK⟩ := (gen_seg fuel).2 f.body _ stB hg
    rw [← Except.ok.inj h]
    refine ⟨?_, seg, ?_, ?_⟩
    · show stB.label_count = _
      rw [h1]
      rfl
    · show stB.label_trace = _
      rw [hs]
      rfl
    · exact hOK

/-- Whole-program label accounting over the function fold. -/
theorem gen_functions_seg : ∀ (fs : List Func) (fuel : Nat) (st st' : CGState),
    gen_functions fuel fs st = .ok st' →
    st'.label_count = st.label_count + 2 * (fs.map (fun f => countCtrlList f.body)).sum
    ∧ ∃ seg, st'.label_trace = st.label_trace ++ seg
        ∧ SegOK st.label_count (2 * (fs.map (fun f => countCtrlList f.body)).sum) seg := by
  intro fs
  induction fs with
  | nil =>
    intro fuel st st' h
    rw [show gen_functions fuel [] st = .ok st from rfl] at h
    rw [← Except.ok.inj h]
    exact ⟨by simp, [], by simp, SegOK_nil _⟩
  | cons f fs ihf =>
    intro fuel st st' h
    rw [show gen_functions fuel (f :: fs) st = (gen_function fuel f st).bind (fun st1 =>
        gen_functions fuel fs st1) from rfl] at h
    rcases hg : gen_function fuel f st with err | st1 <;> rw [hg] at h
    · simp [Except.bind] at h
    · simp only [Except.bind] at h
      obtain ⟨h1, seg1, hs1, hOK1⟩ := gen_function_seg fuel f st st1 hg
      obtain ⟨h3, seg2, hs2, hOK2⟩ := ihf fuel st1 st' h
      refine ⟨?_, seg1 ++ seg2, ?_, ?_⟩
      · rw [h3, h1]
        simp
        ring
      · rw [hs2, hs1]
        simp
      · have hOK2' : SegOK (st.label_count + 2 * countCtrlList f.body)
            (2 * (fs.map (fun f => countCtrlList f.body)).sum) seg2 := by
          rw [← h1]
          exact hOK2
        refine SegOK_congr (SegOK_append _ _ _ _ _ hOK1 hOK2') ?_
        simp
        ring

/-- C6 amended: whenever generation completes successfully (every referenced
variable declared, builtin calls well-formed, fuel ample), the control
labels allocated during the whole run number exactly `2N` for `N` control
constructs and are pairwise distinct, the counter being strictly monotonic
over the run. On a tree whose generation aborts (the original claim
quantified over all trees) no labels are emitted at all; see the
counterexample. -/
theorem claim_C6_label_uniqueness (fuel : Nat) (p : Program) (asm : String) (st' : CGState)
    (h : generate fuel p = .ok (asm, st')) :
    st'.label_trace.length = 2 * countProgram p ∧ st'.label_trace.Nodup := by
  have e2 : generate fuel p = (gen_functions fuel p.functions cgInit).bind (fun st =>
      Except.ok (String.intercalate "\n" ([".data"] ++ st.data ++ [""] ++
        [".text", ".globl main", ""] ++ st.output ++ [""] ++
        ["print_int:", "    li $v0, 1", "    syscall", "    jr $ra", "",
         "print_str:", "    li $v0, 4", "    syscall", "    jr $ra"]), st)) := rfl
  rw [e2] at h
  rcases hg : gen_functions fuel p.functions cgInit with err | stG <;> rw [hg] at h
  · simp [Except.bind] at h
  · simp only [Except.bind] at h
    have hst : st' = stG := (congrArg Prod.snd (Except.ok.inj h)).symm
    obtain ⟨h1, seg, hs, hOK⟩ := gen_functions_seg p.functions fuel cgInit stG hg
    have hseg : stG.label_trace = seg := by simpa [cgInit] using hs
    obtain ⟨hlen, hnd⟩ := SegOK_length_nodup _ _ _ hOK
    rw [hst, hseg]
    exact ⟨by rw [hlen]; rfl, hnd⟩

/-- A program tree whose single `if` condition reads an undeclared variable. -/
def badProg : Program :=
  ⟨[{ return_type := "int", name := "main", body := [.ifS (.var "u") [] none] }]⟩

/-- C6 counterexample: the claim quantifies over any program tree, but a
tree with one control construct whose condition references an undeclared
variable makes CodeGen raise a KeyError: generation aborts and no labels
(rather than exactly `2N = 2`) are emitted. -/
theorem claim_C6_counterexample :
    generate 10 badProg = .error "KeyError: u" ∧ countProgram badProg = 1 := by
  constructor
  · rfl
  · simp [countProgram, badProg, countCtrlList, countCtrl]

/-- A two-construct program used as the C6 witness. -/
def w6prog : Program :=
  ⟨[{ return_type := "int", name := "main",
      body := [.whileS (.number 0) [], .ifS (.number 1) [] none] }]⟩

/-- C6 witness: a concrete successful generation with two control
constructs yields four labels, pairwise distinct. -/
theorem claim_C6_witness :
    ((generate 10 w6prog).toOption.map
      (fun r => r.2.label_trace.length = 2 * countProgram w6prog ∧ r.2.label_trace.Nodup)).getD
      False := by
  rcases hg : generate 10 w6prog with err | r
  · have hs : (generate 10 w6prog).toOption.isSome = true := by decide
    rw [hg] at hs
    simp [Except.toOption] at hs
  · simp only [Except.toOption, Option.map, Option.getD]
    exact claim_C6_label_uniqueness 10 w6prog r.1 r.2 (by rw [hg])

end Litecc
